import Mathlib

/-!
Verification development for the task-wizard-scribe document processor
(`src/services/docxProcessor.ts`, second revision of the file: the one with
the tools/IMT side tables).  The TypeScript is shallowly embedded: strings
are `String`/`List Char`, the anchored regular expressions are compiled by
hand into deterministic matchers over `List Char` (each one is annotated
with the regex it implements and with the argument why the hand compilation
is faithful, including backtracking corner cases), and the stateful pieces
(the `lastIndex` cursor of the global regexes used by `detectTableStructure`)
are modelled by explicit state passing.
-/

set_option maxRecDepth 4096

namespace DocxProcessor

/-! ## Character helpers (JS `\s`, `trim`, `toLowerCase`) -/

/-- JS `\s` character class.  The inputs handled by the processor are ASCII;
we include the ASCII whitespace characters together with NBSP, LS, PS and
BOM, matching the JS class on every character that can occur here. -/
def isJsWs (c : Char) : Bool :=
  c = ' ' || c = '\t' || c = '\n' || c = '\r' ||
  c = '\x0b' || c = '\x0c' || c = ' ' ||
  c = ' ' || c = ' ' || c = '﻿'

/-- `String.prototype.trim`: drop JS whitespace from both ends. -/
def jsTrimL (l : List Char) : List Char :=
  ((l.dropWhile isJsWs).reverse.dropWhile isJsWs).reverse

/-- `String.prototype.trim` on `String`. -/
def jsTrim (s : String) : String :=
  ⟨jsTrimL s.data⟩

/-- `toLowerCase` restricted to ASCII (all header terms and special-section
keywords are ASCII; `Char.toLower` lowers exactly the ASCII uppercase
letters). -/
def lowerL (l : List Char) : List Char :=
  l.map Char.toLower

/-- `String.prototype.includes`: substring test. -/
def containsSub (hay sub : List Char) : Bool :=
  match hay with
  | [] => sub.isEmpty
  | _ :: rest => sub.isPrefixOf hay || containsSub rest sub

/-- Numeric value of a list of decimal digit characters
(`parseInt(capture, 10)` on a `\d+` capture; exact, no float rounding at the
magnitudes that occur). -/
def digitsVal (l : List Char) : ℕ :=
  l.foldl (fun a c => 10 * a + (c.toNat - 48)) 0

/-! ## Decimal printing (`Number.prototype.toString`) and `padStart` -/

/-- Decimal digit character. -/
def digitChar (d : ℕ) : Char :=
  Char.ofNat (48 + d)

/-- Fuel-driven decimal printer; with fuel `> n` it prints all digits of
`n`, most significant first.  Fuel keeps the recursion structural so the
kernel can evaluate it. -/
def toDecimalAux : ℕ → ℕ → List Char
  | 0, _ => []
  | fuel + 1, n =>
    if n < 10 then [digitChar n]
    else toDecimalAux fuel (n / 10) ++ [digitChar (n % 10)]

/-- `n.toString()` for a natural number: base-10, no leading zeros. -/
def natToString (n : ℕ) : String :=
  ⟨toDecimalAux (n + 1) n⟩

/-- `String.prototype.padStart(len, c)` with a single-character fill. -/
def padStart (s : String) (len : ℕ) (c : Char) : String :=
  if len ≤ s.length then s
  else ⟨List.replicate (len - s.length) c ++ s.data⟩

/-! ## Lemmas about the decimal printer -/

theorem digitsVal_append_singleton (l : List Char) (c : Char) :
    digitsVal (l ++ [c]) = 10 * digitsVal l + (c.toNat - 48) := by
  simp [digitsVal, List.foldl_append]

theorem digitsVal_replicate_zero (m : ℕ) (l : List Char) :
    digitsVal (List.replicate m '0' ++ l) = digitsVal l := by
  induction m with
  | zero => simp
  | succ k ih =>
    have : List.replicate (k + 1) '0' ++ l = '0' :: (List.replicate k '0' ++ l) := by
      simp [List.replicate_succ]
    rw [this]
    simpa [digitsVal] using ih

theorem digitChar_toNat (d : ℕ) (h : d < 10) : (digitChar d).toNat = 48 + d := by
  interval_cases d <;> decide

theorem digitsVal_toDecimalAux (fuel n : ℕ) (h : n < fuel) :
    digitsVal (toDecimalAux fuel n) = n := by
  induction fuel generalizing n with
  | zero => omega
  | succ f ih =>
    by_cases hn : n < 10
    · simp [toDecimalAux, hn, digitsVal, digitChar_toNat n hn]
    · have hdiv : n / 10 < f := by omega
      have h10 : n % 10 < 10 := Nat.mod_lt _ (by norm_num)
      rw [toDecimalAux, if_neg hn, digitsVal_append_singleton, ih _ hdiv,
        digitChar_toNat _ h10]
      omega

theorem digitsVal_natToString (n : ℕ) :
    digitsVal (natToString n).data = n :=
  digitsVal_toDecimalAux (n + 1) n (Nat.lt_succ_self n)

/-- Reading back the zero-padded decimal of `n` recovers `n`: leading `'0'`
fill contributes nothing and the unpadded digits round-trip. -/
theorem digitsVal_padStart_natToString (n len : ℕ) :
    digitsVal (padStart (natToString n) len '0').data = n := by
  rw [padStart]
  split
  · exact digitsVal_natToString n
  · simpa [digitsVal_replicate_zero] using digitsVal_natToString n

/-! ## Task number and image id formatting

TS source:
```
const formatTaskNumber = (stepNumber: string, assemblySequenceId: string = '1'): string => {
  const formattedStepNumber = stepNumber.padStart(3, '0');
  return `${assemblySequenceId}.0.${formattedStepNumber}`;
};
const formatImageId = (figureNumber: number, assemblyId: string): string => {
  return `${assemblyId}-0-${figureNumber.toString().padStart(3, '0')}`;
};
```
-/

def formatTaskNumber (stepNumber : String) (assemblySequenceId : String) : String :=
  assemblySequenceId ++ ".0." ++ padStart stepNumber 3 '0'

/-- Every call site passes `taskNum.toString()`; this is that composition. -/
def formatTaskNum (n : ℕ) (assemblySequenceId : String) : String :=
  formatTaskNumber (natToString n) assemblySequenceId

def formatImageId (figureNumber : ℕ) (assemblyId : String) : String :=
  assemblyId ++ "-0-" ++ padStart (natToString figureNumber) 3 '0'

theorem data_formatTaskNum (n : ℕ) (aid : String) :
    (formatTaskNum n aid).data =
      aid.data ++ '.' :: '0' :: '.' :: (padStart (natToString n) 3 '0').data := by
  simp [formatTaskNum, formatTaskNumber]

/-- Dropping the `"{aid}.0."` prefix of a formatted task number and reading
the remaining digits recovers the step index, so for a fixed assembly id the
formatter is injective (on every step index, in particular on `1..999`). -/
theorem formatTaskNum_inj (aid : String) (n m : ℕ)
    (h : formatTaskNum n aid = formatTaskNum m aid) : n = m := by
  have hd : (formatTaskNum n aid).data = (formatTaskNum m aid).data := by rw [h]
  rw [data_formatTaskNum, data_formatTaskNum] at hd
  have hdrop := congrArg (fun l => digitsVal (l.drop (aid.data.length + 3))) hd
  simpa only [List.drop_append, List.drop_succ_cons, List.drop_zero,
    digitsVal_padStart_natToString] using hdrop

/-! ## Step number patterns

TS source (`stepNumberPatterns`, tried in order, first match wins):
```
  /^(\d+)\.?\s+/,                                  -- P1
  /^Step\s+(\d+)\.?\s+/i,                          -- P2
  /^(\d+)\)\s+/,                                   -- P3
  /^[a-zA-Z]?\s*(\d+)[\.\)]\s+/,                   -- P4
  /^Task\s+(\d+)\.?\s+/i,                          -- P5
  /^Sl\.\s*No\.\s*(\d+)/i,                         -- P6
  /^(\d+)\s*[\.\)]\s+/,                            -- P7
  /^[Ss][Ll]\s*\.?\s*[Nn][Oo]\s*\.?\s*(\d+)\s*[\.:]?\s*/,  -- P8
  /^[Pp]rocedure\s+(\d+)/                          -- P9
```
Each matcher returns `some (capturedNumber, restAfterMatch)` or `none`.
The character classes of adjacent regex pieces are disjoint (digits,
whitespace, the literal delimiters), so the greedy matches are forced and
backtracking can never produce a match the compiled matcher misses: an
optional piece (`\.?`, `[a-zA-Z]?`) is consumed exactly when present, since
skipping it would put the next obligatory piece on the same character and
fail identically. -/

/-- `\s+`: require at least one whitespace character; return the rest. -/
def reqWs (l : List Char) : Option (List Char) :=
  if (l.takeWhile isJsWs).isEmpty then none else some (l.dropWhile isJsWs)

/-- `\s*`. -/
def optWs (l : List Char) : List Char :=
  l.dropWhile isJsWs

/-- `(\d+)`: one or more digits; return their value and the rest. -/
def reqDigits (l : List Char) : Option (ℕ × List Char) :=
  if (l.takeWhile Char.isDigit).isEmpty then none
  else some (digitsVal (l.takeWhile Char.isDigit), l.dropWhile Char.isDigit)

/-- A single-character piece `x?`: consume `c` if it is next. -/
def optChar (c : Char) : List Char → List Char
  | c' :: rest => if c' = c then rest else c' :: rest
  | [] => []

/-- A required single character out of a set (`[\.\)]`, `\)`, …). -/
def reqCharOf (cs : List Char) : List Char → Option (List Char)
  | c' :: rest => if c' ∈ cs then some rest else none
  | [] => none

/-- An optional single character out of a set (`[\.:]?`). -/
def optCharOf (cs : List Char) : List Char → List Char
  | c' :: rest => if c' ∈ cs then rest else c' :: rest
  | [] => []

/-- `[a-zA-Z]?`: consume one letter if present. -/
def optAlpha : List Char → List Char
  | c :: rest => if c.isAlpha then rest else c :: rest
  | [] => []

/-- A case-insensitive literal (for the `/i` patterns; the literals are
ASCII). -/
def ciWord : List Char → List Char → Option (List Char)
  | [], l => some l
  | _ :: _, [] => none
  | w :: ws, c :: rest => if c.toLower = w.toLower then ciWord ws rest else none

/-- A case-sensitive literal. -/
def csWord : List Char → List Char → Option (List Char)
  | [], l => some l
  | _ :: _, [] => none
  | w :: ws, c :: rest => if c = w then csWord ws rest else none

/-- P1 `^(\d+)\.?\s+`. -/
def matchP1 (l : List Char) : Option (ℕ × List Char) :=
  (reqDigits l).bind fun (n, r) =>
    (reqWs (optChar '.' r)).map fun r2 => (n, r2)

/-- P2 `^Step\s+(\d+)\.?\s+/i`. -/
def matchP2 (l : List Char) : Option (ℕ × List Char) :=
  (ciWord "step".data l).bind fun r =>
    (reqWs r).bind fun r1 =>
      (reqDigits r1).bind fun (n, r2) =>
        (reqWs (optChar '.' r2)).map fun r3 => (n, r3)

/-- P3 `^(\d+)\)\s+`. -/
def matchP3 (l : List Char) : Option (ℕ × List Char) :=
  (reqDigits l).bind fun (n, r) =>
    (reqCharOf [')'] r).bind fun r1 =>
      (reqWs r1).map fun r2 => (n, r2)

/-- P4 `^[a-zA-Z]?\s*(\d+)[\.\)]\s+`. -/
def matchP4 (l : List Char) : Option (ℕ × List Char) :=
  (reqDigits (optWs (optAlpha l))).bind fun (n, r1) =>
    (reqCharOf ['.', ')'] r1).bind fun r2 =>
      (reqWs r2).map fun r3 => (n, r3)

/-- P5 `^Task\s+(\d+)\.?\s+/i`. -/
def matchP5 (l : List Char) : Option (ℕ × List Char) :=
  (ciWord "task".data l).bind fun r =>
    (reqWs r).bind fun r1 =>
      (reqDigits r1).bind fun (n, r2) =>
        (reqWs (optChar '.' r2)).map fun r3 => (n, r3)

/-- P6 `^Sl\.\s*No\.\s*(\d+)/i`: note that every `\s*` is optional and there
is no trailing requirement after the digits. -/
def matchP6 (l : List Char) : Option (ℕ × List Char) :=
  (ciWord "sl".data l).bind fun r =>
    (reqCharOf ['.'] r).bind fun r1 =>
      (ciWord "no".data (optWs r1)).bind fun r2 =>
        (reqCharOf ['.'] r2).bind fun r3 =>
          reqDigits (optWs r3)

/-- P7 `^(\d+)\s*[\.\)]\s+`. -/
def matchP7 (l : List Char) : Option (ℕ × List Char) :=
  (reqDigits l).bind fun (n, r) =>
    (reqCharOf ['.', ')'] (optWs r)).bind fun r1 =>
      (reqWs r1).map fun r2 => (n, r2)

/-- P8 `^[Ss][Ll]\s*\.?\s*[Nn][Oo]\s*\.?\s*(\d+)\s*[\.:]?\s*`: everything
after the digits is optional. -/
def matchP8 (l : List Char) : Option (ℕ × List Char) :=
  (ciWord "sl".data l).bind fun r =>
    (ciWord "no".data (optWs (optChar '.' (optWs r)))).bind fun r1 =>
      (reqDigits (optWs (optChar '.' (optWs r1)))).map fun (n, r2) =>
        (n, optWs (optCharOf ['.', ':'] (optWs r2)))

/-- P9 `^[Pp]rocedure\s+(\d+)`: only the first letter is case-insensitive,
and nothing is required after the digits. -/
def matchP9 (l : List Char) : Option (ℕ × List Char) :=
  (match l with
    | c :: rest => if c = 'P' ∨ c = 'p' then csWord "rocedure".data rest else none
    | [] => none).bind fun r =>
    (reqWs r).bind fun r1 => reqDigits r1

/-- The ordered pattern list of `stepNumberPatterns`. -/
def stepNumberPatterns : List (List Char → Option (ℕ × List Char)) :=
  [matchP1, matchP2, matchP3, matchP4, matchP5, matchP6, matchP7, matchP8, matchP9]

/-- The pattern loop of the extractors: try each pattern in order, stop at
the first match (`for (const pattern of stepNumberPatterns) { ... break }`). -/
def matchStepNumber (l : List Char) : Option (ℕ × List Char) :=
  (matchP1 l).orElse fun _ =>
  (matchP2 l).orElse fun _ =>
  (matchP3 l).orElse fun _ =>
  (matchP4 l).orElse fun _ =>
  (matchP5 l).orElse fun _ =>
  (matchP6 l).orElse fun _ =>
  (matchP7 l).orElse fun _ =>
  (matchP8 l).orElse fun _ =>
  matchP9 l

theorem matchStepNumber_eq_findSome (l : List Char) :
    matchStepNumber l = stepNumberPatterns.findSome? (fun p => p l) := by
  simp only [matchStepNumber, stepNumberPatterns, List.findSome?, Option.orElse]
  cases matchP1 l <;> cases matchP2 l <;> cases matchP3 l <;> cases matchP4 l <;>
    cases matchP5 l <;> cases matchP6 l <;> cases matchP7 l <;> cases matchP8 l <;>
    cases matchP9 l <;> rfl

/-! ### Which patterns force a whitespace character

P1–P5 and P7 end in `\s+`, so any line they match contains a whitespace
character.  P6, P8 and P9 do not require whitespace after the captured
number (P6 and P8 can match with no whitespace at all, e.g. `"Sl.No.5"`). -/

theorem reqWs_exists_ws {l r : List Char} (h : reqWs l = some r) :
    ∃ c ∈ l, isJsWs c = true := by
  unfold reqWs at h
  split at h
  · exact absurd h (by simp)
  · cases l with
    | nil => simp at *
    | cons c rest =>
      rename_i hne
      by_cases hc : isJsWs c
      · exact ⟨c, List.mem_cons_self c rest, hc⟩
      · simp [List.takeWhile_cons, hc] at hne

theorem optWs_suffix (l : List Char) : optWs l <:+ l :=
  List.dropWhile_suffix _

theorem optChar_suffix (c : Char) (l : List Char) : optChar c l <:+ l := by
  cases l with
  | nil => simp [optChar]
  | cons c' rest =>
    by_cases hc : c' = c
    · simp [optChar, hc]
    · simp [optChar, hc]

theorem optAlpha_suffix (l : List Char) : optAlpha l <:+ l := by
  cases l with
  | nil => simp [optAlpha]
  | cons c rest =>
    by_cases hc : c.isAlpha
    · simp [optAlpha, hc]
    · simp [optAlpha, hc]

theorem reqDigits_suffix {l : List Char} {n : ℕ} {r : List Char}
    (h : reqDigits l = some (n, r)) : r <:+ l := by
  unfold reqDigits at h
  split at h
  · exact absurd h (by simp)
  · simp only [Option.some.injEq, Prod.mk.injEq] at h
    exact h.2 ▸ List.dropWhile_suffix _

theorem reqCharOf_suffix {cs l r : List Char} (h : reqCharOf cs l = some r) :
    r <:+ l := by
  cases l with
  | nil => simp [reqCharOf] at h
  | cons c' rest =>
    by_cases hc : c' ∈ cs
    · simp only [reqCharOf, hc, if_true, Option.some.injEq] at h
      exact h ▸ List.suffix_cons c' rest
    · simp [reqCharOf, hc] at h

theorem ciWord_suffix {w l r : List Char} (h : ciWord w l = some r) : r <:+ l := by
  induction w generalizing l with
  | nil => simp [ciWord] at h; exact h ▸ List.suffix_refl _
  | cons x xs ih =>
    cases l with
    | nil => simp [ciWord] at h
    | cons c rest =>
      unfold ciWord at h
      split at h
      · exact (ih h).trans (List.suffix_cons c rest)
      · exact absurd h (by simp)

theorem csWord_suffix {w l r : List Char} (h : csWord w l = some r) : r <:+ l := by
  induction w generalizing l with
  | nil => simp [csWord] at h; exact h ▸ List.suffix_refl _
  | cons x xs ih =>
    cases l with
    | nil => simp [csWord] at h
    | cons c rest =>
      unfold csWord at h
      split at h
      · exact (ih h).trans (List.suffix_cons c rest)
      · exact absurd h (by simp)

theorem matchP1_requires_ws {l : List Char} {n : ℕ} {r : List Char}
    (h : matchP1 l = some (n, r)) : ∃ c ∈ l, isJsWs c = true := by
  unfold matchP1 at h
  cases hd : reqDigits l with
  | none => rw [hd] at h; simp at h
  | some d =>
    rw [hd] at h
    obtain ⟨n0, r1⟩ := d
    cases hw : reqWs (optChar '.' r1) with
    | none => simp [hw] at h
    | some r2 =>
      obtain ⟨c, hc, hcw⟩ := reqWs_exists_ws hw
      have hsuf : optChar '.' r1 <:+ l :=
        (optChar_suffix '.' r1).trans (reqDigits_suffix hd)
      exact ⟨c, hsuf.subset hc, hcw⟩

theorem matchP2_requires_ws {l : List Char} {n : ℕ} {r : List Char}
    (h : matchP2 l = some (n, r)) : ∃ c ∈ l, isJsWs c = true := by
  unfold matchP2 at h
  cases hcw : ciWord "step".data l with
  | none => rw [hcw] at h; simp at h
  | some r0 =>
    rw [hcw] at h
    cases hw : reqWs r0 with
    | none => simp [hw] at h
    | some r1 =>
      obtain ⟨c, hc, hws⟩ := reqWs_exists_ws hw
      exact ⟨c, (ciWord_suffix hcw).subset hc, hws⟩

theorem matchP3_requires_ws {l : List Char} {n : ℕ} {r : List Char}
    (h : matchP3 l = some (n, r)) : ∃ c ∈ l, isJsWs c = true := by
  unfold matchP3 at h
  cases hd : reqDigits l with
  | none => rw [hd] at h; simp at h
  | some d =>
    rw [hd] at h
    obtain ⟨n0, r1⟩ := d
    cases hp : reqCharOf [')'] r1 with
    | none => simp [hp] at h
    | some r2 =>
      cases hw : reqWs r2 with
      | none => simp [hp, hw] at h
      | some r3 =>
        obtain ⟨c, hc, hws⟩ := reqWs_exists_ws hw
        have hsuf : r2 <:+ l := (reqCharOf_suffix hp).trans (reqDigits_suffix hd)
        exact ⟨c, hsuf.subset hc, hws⟩

theorem matchP4_requires_ws {l : List Char} {n : ℕ} {r : List Char}
    (h : matchP4 l = some (n, r)) : ∃ c ∈ l, isJsWs c = true := by
  unfold matchP4 at h
  cases hd : reqDigits (optWs (optAlpha l)) with
  | none => rw [hd] at h; simp at h
  | some d =>
    rw [hd] at h
    obtain ⟨n0, r1⟩ := d
    cases hp : reqCharOf ['.', ')'] r1 with
    | none => simp [hp] at h
    | some r2 =>
      cases hw : reqWs r2 with
      | none => simp [hp, hw] at h
      | some r3 =>
        obtain ⟨c, hc, hws⟩ := reqWs_exists_ws hw
        have hsuf : r2 <:+ l :=
          (reqCharOf_suffix hp).trans
            ((reqDigits_suffix hd).trans ((optWs_suffix _).trans (optAlpha_suffix l)))
        exact ⟨c, hsuf.subset hc, hws⟩

theorem matchP5_requires_ws {l : List Char} {n : ℕ} {r : List Char}
    (h : matchP5 l = some (n, r)) : ∃ c ∈ l, isJsWs c = true := by
  unfold matchP5 at h
  cases hcw : ciWord "task".data l with
  | none => rw [hcw] at h; simp at h
  | some r0 =>
    rw [hcw] at h
    cases hw : reqWs r0 with
    | none => simp [hw] at h
    | some r1 =>
      obtain ⟨c, hc, hws⟩ := reqWs_exists_ws hw
      exact ⟨c, (ciWord_suffix hcw).subset hc, hws⟩

theorem matchP7_requires_ws {l : List Char} {n : ℕ} {r : List Char}
    (h : matchP7 l = some (n, r)) : ∃ c ∈ l, isJsWs c = true := by
  unfold matchP7 at h
  cases hd : reqDigits l with
  | none => rw [hd] at h; simp at h
  | some d =>
    rw [hd] at h
    obtain ⟨n0, r1⟩ := d
    cases hp : reqCharOf ['.', ')'] (optWs r1) with
    | none => simp [hp] at h
    | some r2 =>
      cases hw : reqWs r2 with
      | none => simp [hp, hw] at h
      | some r3 =>
        obtain ⟨c, hc, hws⟩ := reqWs_exists_ws hw
        have hsuf : r2 <:+ l :=
          (reqCharOf_suffix hp).trans ((optWs_suffix r1).trans (reqDigits_suffix hd))
        exact ⟨c, hsuf.subset hc, hws⟩

/-! ## Data model -/

/-- One extracted procedural step (`Task` of `TaskPreview`; `imageData`
blobs are opaque and omitted — only the fields the algorithms read are
kept). -/
structure Task where
  task_no : String
  type : String
  eta_sec : String
  description : String
  activity : String
  specification : String
  attachment : String
  hasImage : Bool
  deriving Repr, DecidableEq

/-- One embedded image.  The binary blob is opaque; it is represented by
the media file name it came from. -/
structure ImageRecord where
  task_no : String
  imageName : String
  contentType : String
  deriving Repr, DecidableEq

/-- One `toolsData` row. -/
structure ToolsRecord where
  task_no : String
  tools : String
  deriving Repr, DecidableEq

/-- One `imtData` row. -/
structure IMTRecord where
  task_no : String
  imt : String
  deriving Repr, DecidableEq

/-! ## Special paragraph patterns

TS source:
```
const specialParagraphPatterns = {
  tools: /^Tools\s+used:?\s*/i,
  imt: /^IMT\s+used:?\s*/i,
  keyPoints: /^Key\s+points:?\s*/i,
  note: /^Note:?\s*/i
};
```
`.test` and `.replace` of the same anchored pattern are modelled by one
matcher returning the rest after the matched prefix (`replace` removes
exactly the matched prefix). -/

/-- `^A\s+B:?\s*` case-insensitively for two literal words. -/
def matchTwoWordTag (w1 w2 : List Char) (l : List Char) : Option (List Char) :=
  (ciWord w1 l).bind fun r =>
    (reqWs r).bind fun r1 =>
      (ciWord w2 r1).map fun r2 => optWs (optChar ':' r2)

def matchToolsTag (l : List Char) : Option (List Char) :=
  matchTwoWordTag "tools".data "used".data l

def matchIMTTag (l : List Char) : Option (List Char) :=
  matchTwoWordTag "imt".data "used".data l

def matchKeyPointsTag (l : List Char) : Option (List Char) :=
  matchTwoWordTag "key".data "points".data l

/-- `^Note:?\s*` case-insensitively. -/
def matchNoteTag (l : List Char) : Option (List Char) :=
  (ciWord "note".data l).map fun r => optWs (optChar ':' r)

/-! ## Header detection

TS source (`headerTerms`, `isHeaderRow`).  The early-`return true` as soon
as one term is found makes the final
`((hasTabSeparation || hasMultipleSpaceSeparation) && headerTermsFound > 0)`
clause unreachable (that branch only runs with `headerTermsFound = 0`), so
the function returns `anyTerm || hasNumberLabels`; the dead clause is kept
as a comment. -/

def headerTerms : List String :=
  ["sl no", "sl.no", "sl. no", "serial no", "serial number",
   "step no", "task no", "job details", "description", "activity",
   "operation", "procedure", "instruction", "steps", "sl-no",
   "task description", "work instruction", "action", "#", "no.",
   "tasks", "item", "procedures"]

/-- `/^\s*([0-9]+|[#])\s*\./` — optional leading whitespace, a digit run or
`#`, optional whitespace, a dot. -/
def numberLabelTest (l : List Char) : Bool :=
  let r0 := optWs l
  let r1 : Option (List Char) :=
    match r0 with
    | c :: rest =>
      if c = '#' then some rest
      else if (r0.takeWhile Char.isDigit).isEmpty then none
      else some (r0.dropWhile Char.isDigit)
    | [] => none
  match r1 with
  | some r => (reqCharOf ['.'] (optWs r)).isSome
  | none => false

/-- `/description|details|procedure|step/i`: unanchored case-insensitive
search for any of four literals. -/
def hasHeaderKeyword (l : List Char) : Bool :=
  let low := lowerL l
  containsSub low "description".data || containsSub low "details".data ||
    containsSub low "procedure".data || containsSub low "step".data

/-- `/\s{3,}/` — three consecutive whitespace characters somewhere. -/
def hasWsRun3 : List Char → Bool
  | a :: b :: c :: rest =>
    (isJsWs a && isJsWs b && isJsWs c) || hasWsRun3 (b :: c :: rest)
  | _ => false

def isHeaderRow (line : List Char) : Bool :=
  let lowerLine := lowerL line
  if headerTerms.any (fun t => containsSub lowerLine t.data) then true
  else
    -- hasTabSeparation / hasMultipleSpaceSeparation are only used in the
    -- clause `(hasTab || hasMulti) && headerTermsFound > 0`, which is
    -- unreachable here because headerTermsFound = 0 in this branch.
    numberLabelTest line && hasHeaderKeyword line

def isHeaderRowS (line : String) : Bool :=
  isHeaderRow line.data

/-! ## Figure reference scanning

`mapImagesToTasks` scans task activities with
```
  /figure\s+(\d+)/gi, /fig\.?\s+(\d+)/gi, /photo\s+(\d+)/gi,
  /picture\s+(\d+)/gi, /image\s+(\d+)/gi, /illustration\s+(\d+)/gi
```
(`lastIndex` is reset to 0 before each task, so each scan is fresh), and
`extractImages` scans the HTML with the head-case-only variants
`/[Ff]igure\s+(\d+)/g`, `/[Ff]ig\.?\s+(\d+)/g`, `/[Ii]llustration…/`, ….
A global `exec` loop yields the matches left to right, resuming after the
end of each match; the scanner below advances one character on failure and
past the match on success, which is exactly that behaviour. -/

/-- Head-case-insensitive literal (`[Ff]igure` style: the word is given in
lowercase, only its first letter may be capitalized). -/
def hcWord : List Char → List Char → Option (List Char)
  | wc :: wrest, c :: rest =>
    if c = wc ∨ c = wc.toUpper then csWord wrest rest else none
  | [], l => some l
  | _, [] => none

/-- One attempt of `lit\.?\s+(\d+)` at the current position, with a choice
of literal matcher. -/
def figMatchAt (word : List Char → List Char → Option (List Char))
    (lit : List Char) (optDot : Bool) (l : List Char) : Option (ℕ × List Char) :=
  (word lit l).bind fun r =>
    (reqWs (if optDot then optChar '.' r else r)).bind fun r2 => reqDigits r2

/-- Global scan: collect every match, resuming after each match.  The fuel
(initially the length of the text) bounds the number of positions visited
and is always sufficient. -/
def scanFigsAux (word : List Char → List Char → Option (List Char))
    (lit : List Char) (optDot : Bool) : ℕ → List Char → List ℕ
  | 0, _ => []
  | fuel + 1, l =>
    match l with
    | [] => []
    | _ :: rest =>
      match figMatchAt word lit optDot l with
      | some (n, r) => n :: scanFigsAux word lit optDot fuel r
      | none => scanFigsAux word lit optDot fuel rest

/-- Scan with a fully case-insensitive literal (the `/gi` patterns). -/
def scanFigsCi (lit : String) (optDot : Bool) (l : List Char) : List ℕ :=
  scanFigsAux ciWord lit.data optDot l.length l

/-- Scan with a head-case-insensitive literal (the `[Ff]…` patterns). -/
def scanFigsHc (lit : String) (optDot : Bool) (l : List Char) : List ℕ :=
  scanFigsAux hcWord lit.data optDot l.length l

/-! ## Image-to-task mapper (`mapImagesToTasks`) -/

/-- `task.task_no?.split('.')[0] || '1'`: the first dot-separated component
of the task number, replaced by `"1"` when it is empty. -/
def taskPfx (task_no : String) : String :=
  let h := task_no.data.takeWhile (fun c => c ≠ '.')
  if h.isEmpty then "1" else ⟨h⟩

/-- The figure numbers referenced by one activity text, in the pattern and
scan order of the source. -/
def taskFigNums (activity : String) : List ℕ :=
  scanFigsCi "figure" false activity.data ++ scanFigsCi "fig" true activity.data ++
    scanFigsCi "photo" false activity.data ++ scanFigsCi "picture" false activity.data ++
    scanFigsCi "image" false activity.data ++ scanFigsCi "illustration" false activity.data

/-- `if (!taskFigures.includes(imageId)) taskFigures.push(imageId)`. -/
def pushUnique (acc : List String) (s : String) : List String :=
  if s ∈ acc then acc else acc ++ [s]

/-- The `taskFigures` list computed for one task by the primary method:
the image id of every referenced figure number (keyed by the task's own
assembly prefix), de-duplicated, in first-occurrence order.  Note that the
source pushes the computed id without checking it against the extracted
image list. -/
def collectTaskFigures (t : Task) : List String :=
  ((taskFigNums t.activity).map fun n => formatImageId n (taskPfx t.task_no)).foldl
    pushUnique []

/-- `taskImageMapping[k] = v` on a JS object: overwrite in place if the key
exists, otherwise append. -/
def insertAssoc (k : String) (v : List String) :
    List (String × List String) → List (String × List String)
  | [] => [(k, v)]
  | (k', v') :: rest =>
    if k' = k then (k', v) :: rest else (k', v') :: insertAssoc k v rest

def lookupAssoc (m : List (String × List String)) (k : String) : Option (List String) :=
  match m with
  | [] => none
  | (k', v) :: rest => if k' = k then some v else lookupAssoc rest k

/-- A `tasks.forEach((task, index) => …)` loop that conditionally stores a
value under the task's number. -/
def buildMapAux (f : Task → ℕ → Option (List String)) :
    List Task → ℕ → List (String × List String) → List (String × List String)
  | [], _, m => m
  | t :: rest, i, m =>
    buildMapAux f rest (i + 1)
      (match f t i with
       | some v => insertAssoc t.task_no v m
       | none => m)

def buildMap (f : Task → ℕ → Option (List String)) (ts : List Task) :
    List (String × List String) :=
  buildMapAux f ts 0 []

/-- What the primary method stores for one task (the index is unused). -/
def primaryFigsFn (t : Task) (_ : ℕ) : Option (List String) :=
  let figs := collectTaskFigures t
  if figs.isEmpty then none else some figs

/-- `taskImages.join(', ')`. -/
def joinComma : List String → String
  | [] => ""
  | [s] => s
  | s :: rest => s ++ ", " ++ joinComma rest

/-- `Math.ceil(images.length / tasks.length)` on naturals (the float
division is exact at these magnitudes). -/
def imagesPerTaskOf (tasks : List Task) (images : List ImageRecord) : ℕ :=
  (images.length + tasks.length - 1) / tasks.length

/-- What the even-distribution fallback stores for the task at `index`:
`images[start .. min(start + perTask, images.length))`, and nothing when
`start` is past the end (`take` clips at the end of the list exactly like
the `Math.min` bound). -/
def evenFigsFn (tasks : List Task) (images : List ImageRecord) (_ : Task) (i : ℕ) :
    Option (List String) :=
  let perTask := imagesPerTaskOf tasks images
  if i * perTask < images.length then
    some (((images.map fun im => im.task_no).drop (i * perTask)).take perTask)
  else none

/-- The `taskImageMapping` object after both phases: the primary
figure-reference pass, then — only when that found nothing and both lists
are non-empty — the even distribution. -/
def taskImageMappingOf (tasks : List Task) (images : List ImageRecord) :
    List (String × List String) :=
  let primary := buildMap primaryFigsFn tasks
  if primary.isEmpty && !tasks.isEmpty && !images.isEmpty then
    buildMap (evenFigsFn tasks images) tasks
  else primary

/-- `mapImagesToTasks`.  The `figureReferences` array the source computes
from `documentText` is dead code (never read); it is omitted here. -/
def mapImagesToTasks (tasks : List Task) (images : List ImageRecord)
    (_documentText : String) : List Task :=
  let mapping := taskImageMappingOf tasks images
  tasks.map fun t =>
    let tf := (lookupAssoc mapping t.task_no).getD []
    { t with attachment := joinComma tf, hasImage := !tf.isEmpty }

/-! ## Table structure detection (`detectTableStructure`)

TS source:
```
const tableIndicators = [
  /\t[^\t]+\t[^\t]+/g,
  /\s{2,}[^\s]+\s{2,}[^\s]+/g,
  /^\d+\.\s+[^\n]+\n\d+\.\s+/m
];
let tableLineCount = 0;
const lines = content.split('\n');
for (const line of lines) {
  if (tableIndicators.some(pattern => pattern.test(line))) tableLineCount++;
}
return tableLineCount > lines.length * 0.2;
```
The first two indicator regexes carry the `g` flag, and `RegExp.test` on a
global regex is *stateful*: the search starts at the regex's `lastIndex`,
which is set to the end of the match on success and reset to 0 on failure.
Because the same three regex objects are reused for every line of one call,
that cursor leaks from one line to the next (`.some` short-circuits, so a
later regex keeps its cursor when an earlier one matches).  The model
threads the three cursors explicitly. -/

/-- `String.prototype.split('\n')` (keeps empty segments). -/
def splitLines : List Char → List (List Char)
  | [] => [[]]
  | c :: rest =>
    if c = '\n' then [] :: splitLines rest
    else
      match splitLines rest with
      | [] => [[c]]
      | l :: ls => (c :: l) :: ls

/-- `\t[^\t]+\t[^\t]+` anchored at the current position; returns the number
of characters consumed.  The greedy `[^\t]+` runs are forced: each one must
extend exactly to the next tab (or, for the final one, to its maximal run),
since `[^\t]` and `\t` are disjoint. -/
def tabPairAt (l : List Char) : Option ℕ :=
  match l with
  | '\t' :: r =>
    let a := r.takeWhile (fun c => c ≠ '\t')
    if a.isEmpty then none
    else
      match r.dropWhile (fun c => c ≠ '\t') with
      | '\t' :: r2 =>
        let b := r2.takeWhile (fun c => c ≠ '\t')
        if b.isEmpty then none else some (1 + a.length + 1 + b.length)
      | _ => none
  | _ => none

/-- `\s{2,}[^\s]+\s{2,}[^\s]+` anchored at the current position.  The
greedy quantifiers are forced because `\s` and `[^\s]` are disjoint: each
`\s{2,}` must take a whole whitespace run (of length ≥ 2) and each `[^\s]+`
a whole non-whitespace run. -/
def wsPairAt (l : List Char) : Option ℕ :=
  let w1 := l.takeWhile isJsWs
  if w1.length < 2 then none
  else
    let r1 := l.dropWhile isJsWs
    let x1 := r1.takeWhile (fun c => !isJsWs c)
    if x1.isEmpty then none
    else
      let r2 := r1.dropWhile (fun c => !isJsWs c)
      let w2 := r2.takeWhile isJsWs
      if w2.length < 2 then none
      else
        let r3 := r2.dropWhile isJsWs
        let x2 := r3.takeWhile (fun c => !isJsWs c)
        if x2.isEmpty then none
        else some (w1.length + x1.length + w2.length + x2.length)

/-- `\d+\.\s+` (the tail of the numbered-list indicator); returns the
characters consumed. -/
def numDotWsAt (l : List Char) : Option ℕ :=
  (reqDigits l).bind fun (_, r) =>
    (reqCharOf ['.'] r).bind fun r1 =>
      (reqWs r1).map fun r2 => l.length - r2.length

/-- `^\d+\.\s+[^\n]+\n\d+\.\s+` (with `/m`, `^` must sit at the start of
the string or just after a `'\n'`; the caller checks that).  After
`\d+\.` the engine backtracks over the split of the middle part into
`\s+` (which may contain `'\n'`) and `[^\n]+`; greedy order tries the
longest whitespace run first, and for a fixed run the `[^\n]+` must extend
exactly to the next `'\n'`.  Any successful match contains a literal
`'\n'`, so on the newline-free lines this regex is tested against it never
matches. -/
def numListAt (l : List Char) : Option ℕ :=
  (reqDigits l).bind fun (_, r) =>
    (reqCharOf ['.'] r).bind fun r1 =>
      let wmax := (r1.takeWhile isJsWs).length
      let consumed0 := l.length - r1.length
      (List.range wmax).foldl
        (fun acc idx =>
          match acc with
          | some k => some k
          | none =>
            let a := wmax - idx
            let r2 := r1.drop a
            let x := r2.takeWhile (fun c => c ≠ '\n')
            if x.isEmpty then none
            else
              match r2.dropWhile (fun c => c ≠ '\n') with
              | '\n' :: r3 =>
                (numDotWsAt r3).map fun k2 =>
                  consumed0 + a + x.length + 1 + k2
              | _ => none)
        none

/-- Search for a match of `m` at any position `≥ i`; returns the end index
of the first (leftmost) match.  Recursion is structural on the suffix. -/
def searchAux (m : List Char → Option ℕ) : List Char → ℕ → Option ℕ
  | suffix, p =>
    match m suffix with
    | some k => some (p + k)
    | none =>
      match suffix with
      | [] => none
      | _ :: t => searchAux m t (p + 1)

/-- Search from the `lastIndex` cursor (`l.drop i` is empty when the cursor
is past the end, which makes the JS out-of-range test fail as required). -/
def searchFrom (m : List Char → Option ℕ) (l : List Char) (i : ℕ) : Option ℕ :=
  searchAux m (l.drop i) i

/-- Search with the multiline `^` anchor: positions 0 or just after `'\n'`. -/
def searchAnchAux (m : List Char → Option ℕ) :
    List Char → ℕ → Bool → Option ℕ
  | suffix, p, anch =>
    match (if anch then m suffix else none) with
    | some k => some (p + k)
    | none =>
      match suffix with
      | [] => none
      | c :: t => searchAnchAux m t (p + 1) (c = '\n')

def searchAnchFrom (m : List Char → Option ℕ) (l : List Char) (i : ℕ) : Option ℕ :=
  searchAnchAux m (l.drop i) i
    (i = 0 || (decide (0 < i) && (l.drop (i - 1)).head? = some '\n'))

/-- `pattern.test(line)` for a `g`-flag regex: search from `lastIndex`;
on success return `true` and the new `lastIndex` (the match end), on
failure return `false` and reset the cursor to 0. -/
def statefulTest (search : List Char → ℕ → Option ℕ)
    (line : List Char) (lastIndex : ℕ) : Bool × ℕ :=
  match search line lastIndex with
  | some e => (true, e)
  | none => (false, 0)

/-- One line of the `for (const line of lines)` loop: `.some` tries the
three indicators in order and short-circuits, each updating only its own
cursor. -/
def detectLineStep (line : List Char) (st : ℕ × ℕ × ℕ × ℕ) : ℕ × ℕ × ℕ × ℕ :=
  let (li1, li2, li3, count) := st
  let (b1, li1') := statefulTest (searchFrom tabPairAt) line li1
  if b1 then (li1', li2, li3, count + 1)
  else
    let (b2, li2') := statefulTest (searchFrom wsPairAt) line li2
    if b2 then (li1', li2', li3, count + 1)
    else
      let (b3, li3') := statefulTest (searchAnchFrom numListAt) line li3
      (li1', li2', li3', count + (if b3 then 1 else 0))

/-- `detectTableStructure` as implemented (with the leaking `lastIndex`
cursors).  `count > lines.length * 0.2` is `5 * count > lines.length`
(exact arithmetic; the double rounding of `0.2` does not flip the strict
comparison at these sizes). -/
def detectTableStructure (content : String) : Bool :=
  let lines := splitLines content.data
  let st := lines.foldl (fun st line => detectLineStep line st) (0, 0, 0, 0)
  5 * st.2.2.2 > lines.length

/-- A single line matches at least one indicator when tested with a fresh
regex (cursor 0).  This is the stateless reading of the spec sentence
"count of lines that match at least one of the indicator regexes". -/
def lineMatchesIndicator (line : List Char) : Bool :=
  (searchFrom tabPairAt line 0).isSome || (searchFrom wsPairAt line 0).isSome ||
    (searchAnchFrom numListAt line 0).isSome

/-- `detectTableStructure` as the spec describes it: stateless per-line
matching against the same three indicator regexes, same 20 % threshold. -/
def detectTableStructureSpec (content : String) : Bool :=
  let lines := splitLines content.data
  5 * (lines.filter lineMatchesIndicator).length > lines.length

/-! ## Paragraph strategy (`extractTasks`)

Faithful embedding of the second revision's `extractTasks`: a fold over the
lines with the loop state `(tasks, currentTaskNum, currentTask,
lastFoundTaskNum, currentSpecification, toolsData, imtData)`.  JS detail:
the tools/IMT and key-points/note guards test `currentTaskNum` for
*truthiness*, so step number 0 does not enable them, while the save-previous
check is `currentTaskNum !== null`. -/

structure ExtractState where
  tasks : List Task
  curNum : Option ℕ
  curText : String
  lastFound : ℕ
  curSpec : String
  tools : List ToolsRecord
  imts : List IMTRecord
  deriving Repr, DecidableEq

/-- JS truthiness of `currentTaskNum` (`null` and `0` are falsy). -/
def truthyNum : Option ℕ → Bool
  | some n => decide (n ≠ 0)
  | none => false

/-- The placeholder pushed for a skipped step index. -/
def placeholderTask (docTitle aid : String) (i : ℕ) : Task :=
  { task_no := formatTaskNum i aid, type := "Operation", eta_sec := "",
    description := docTitle,
    activity := "[This task was not found in the document]",
    specification := "", attachment := "", hasImage := false }

/-- The task pushed when a step is completed (`activity:
currentTask.trim()`). -/
def emitTask (docTitle aid : String) (n : ℕ) (activity spec : String) : Task :=
  { task_no := formatTaskNum n aid, type := "Operation", eta_sec := "",
    description := docTitle, activity := jsTrim activity,
    specification := spec, attachment := "", hasImage := false }

/-- One iteration of the `for (const line of lines)` loop. -/
def extractLineStep (docTitle aid : String) (st : ExtractState) (line : String) :
    ExtractState :=
  let t := jsTrim line
  if t = "" || isHeaderRowS t then st
  else
    let isTools := (matchToolsTag t.data).isSome
    let isIMT := (matchIMTTag t.data).isSome
    let isKey := (matchKeyPointsTag t.data).isSome
    let isNote := (matchNoteTag t.data).isSome
    if (isTools || isIMT) && truthyNum st.curNum then
      let taskId := formatTaskNum (st.curNum.getD 0) aid
      if isTools then
        { st with tools := st.tools ++
            [{ task_no := taskId, tools := jsTrim ⟨(matchToolsTag t.data).getD []⟩ }] }
      else
        { st with imts := st.imts ++
            [{ task_no := taskId, imt := jsTrim ⟨(matchIMTTag t.data).getD []⟩ }] }
    else if (isKey || isNote) && truthyNum st.curNum then
      let tag := if isKey then "Key points: " else "Note: "
      let content :=
        jsTrim ⟨((if isKey then matchKeyPointsTag t.data else matchNoteTag t.data)).getD []⟩
      let spec' :=
        if st.curSpec ≠ "" then st.curSpec ++ "\n" ++ tag ++ content
        else tag ++ content
      { st with curSpec := spec' }
    else
      match matchStepNumber t.data with
      | some (n, rest) =>
        let st1 :=
          if st.curText ≠ "" && st.curNum.isSome then
            { st with
              tasks := st.tasks ++
                [emitTask docTitle aid (st.curNum.getD 0) st.curText st.curSpec],
              lastFound := st.curNum.getD 0,
              curSpec := "" }
          else st
        let st2 := { st1 with curNum := some n, curText := jsTrim ⟨rest⟩ }
        if st2.lastFound > 0 && n > st2.lastFound + 1 then
          let gap := (List.range' (st2.lastFound + 1) (n - st2.lastFound - 1)).map
            (placeholderTask docTitle aid)
          { st2 with tasks := st2.tasks ++ gap }
        else st2
      | none =>
        if st.curText ≠ "" then { st with curText := st.curText ++ " " ++ t }
        else st

/-- The header scan at the top of `extractTasks`: `startIndex` becomes one
past the last header row among the first five lines. -/
def extractTasksStartIndex (lines : List String) : ℕ :=
  ((lines.take 5).foldl
    (fun (p : ℕ × ℕ) line => (if isHeaderRowS line then p.2 + 1 else p.1, p.2 + 1))
    (0, 0)).1

/-- `extractTasks` (paragraph strategy).  The `images` parameter of the
source is never read inside the function and is omitted. -/
def extractTasks (lines : List String) (docTitle : String) (aid : String)
    (toolsData : List ToolsRecord) (imtData : List IMTRecord) :
    List Task × List ToolsRecord × List IMTRecord :=
  let st0 : ExtractState := ⟨[], none, "", 0, "", toolsData, imtData⟩
  let st := (lines.drop (extractTasksStartIndex lines)).foldl
    (extractLineStep docTitle aid) st0
  let finalTasks :=
    if st.curText ≠ "" && st.curNum.isSome then
      st.tasks ++ [emitTask docTitle aid (st.curNum.getD 0) st.curText st.curSpec]
    else st.tasks
  (finalTasks, st.tools, st.imts)

/-! ## Table strategy (`extractTasksFromTable`) -/

/-- `String.prototype.split(c)` for a single-character separator (keeps
empty segments). -/
def splitOnChar (sep : Char) : List Char → List (List Char)
  | [] => [[]]
  | c :: rest =>
    if c = sep then [] :: splitOnChar sep rest
    else
      match splitOnChar sep rest with
      | [] => [[c]]
      | l :: ls => (c :: l) :: ls

/-- `split(/\s{3,}/)`: a delimiter is a maximal whitespace run of length at
least 3 (`{3,}` is greedy, and a shorter cut would leave the next
obligatory character a whitespace).  Fuel is the length of the list and is
always sufficient. -/
def splitWs3Aux : ℕ → List Char → List (List Char)
  | 0, l => [l]
  | fuel + 1, l =>
    match l with
    | [] => [[]]
    | c :: rest =>
      let run := (c :: rest).takeWhile isJsWs
      if run.length ≥ 3 then [] :: splitWs3Aux fuel ((c :: rest).drop run.length)
      else
        match splitWs3Aux fuel rest with
        | [] => [[c]]
        | s :: ss => (c :: s) :: ss

def splitWs3 (l : List Char) : List (List Char) :=
  splitWs3Aux l.length l

/-- `parts[0].match(/\d+/)`: the first maximal digit run anywhere in the
string, as a number. -/
def firstDigitRun : List Char → Option ℕ
  | [] => none
  | c :: rest =>
    if c.isDigit then some (digitsVal ((c :: rest).takeWhile Char.isDigit))
    else firstDigitRun rest

/-- `parts.slice(1).join(' ')`. -/
def joinSpace : List String → String
  | [] => ""
  | [s] => s
  | s :: rest => s ++ " " ++ joinSpace rest

/-- Rewrite the last element of a list (the in-place mutation of
`tasks[tasks.length - 1]`). -/
def updateLast (f : Task → Task) : List Task → List Task
  | [] => []
  | [t] => [f t]
  | t :: rest => t :: updateLast f rest

def lastTaskNo (tasks : List Task) : String :=
  match tasks.getLast? with
  | some t => t.task_no
  | none => ""

/-- `lastTask.specification += …` with the labelled prefix. -/
def appendSpec (tag content : String) (t : Task) : Task :=
  { t with specification :=
      if t.specification ≠ "" then t.specification ++ "\n" ++ tag ++ content
      else tag ++ content }

/-- The column-split fallback of the table strategy: tab columns first,
else 3-or-more-space columns. -/
def tableColumnSplit (line : String) : Option (ℕ × String) :=
  if line.data.contains '\t' then
    let parts := ((splitOnChar '\t' line.data).map fun l => (⟨l⟩ : String)).filter
      fun p => jsTrim p ≠ ""
    match parts with
    | p0 :: p1 :: rest =>
      (firstDigitRun p0.data).map fun n => (n, jsTrim (joinSpace (p1 :: rest)))
    | _ => none
  else if hasWsRun3 line.data then
    let parts := (splitWs3 line.data).map fun l => (⟨l⟩ : String)
    match parts with
    | p0 :: p1 :: rest =>
      (firstDigitRun p0.data).map fun n => (n, jsTrim (joinSpace (p1 :: rest)))
    | _ => none
  else none

/-- The header scan of the table strategy (first 15 lines; `skipLines` is
one past the last header found). -/
def tableSkipLines (lines : List String) : ℕ :=
  ((lines.take 15).foldl
    (fun (p : ℕ × ℕ) line => (if isHeaderRowS line then p.2 + 1 else p.1, p.2 + 1))
    (0, 0)).1

/-- One line of the table-strategy loop.  Unlike the paragraph strategy,
tools/IMT/key-points/note lines here are keyed to the *last pushed task*
(and dropped when no task has been pushed yet); the dead `taskNum`
counter of the source (written, never read) is omitted. -/
def tableLineStep (docTitle aid : String)
    (acc : List Task × List ToolsRecord × List IMTRecord) (rawLine : String) :
    List Task × List ToolsRecord × List IMTRecord :=
  let (tasks, tools, imts) := acc
  let line := jsTrim rawLine
  if isHeaderRowS line then acc
  else
    let isTools := (matchToolsTag line.data).isSome
    let isIMT := (matchIMTTag line.data).isSome
    let isKey := (matchKeyPointsTag line.data).isSome
    let isNote := (matchNoteTag line.data).isSome
    if isTools || isIMT then
      if tasks.isEmpty then acc
      else
        let taskId := lastTaskNo tasks
        let tools' :=
          if isTools then
            tools ++ [{ task_no := taskId,
                        tools := jsTrim ⟨(matchToolsTag line.data).getD []⟩ }]
          else tools
        let imts' :=
          if isIMT then
            imts ++ [{ task_no := taskId,
                       imt := jsTrim ⟨(matchIMTTag line.data).getD []⟩ }]
          else imts
        (tasks, tools', imts')
    else if isKey || isNote then
      if tasks.isEmpty then acc
      else
        let tag := if isKey then "Key points: " else "Note: "
        let content :=
          jsTrim ⟨((if isKey then matchKeyPointsTag line.data else matchNoteTag line.data)).getD []⟩
        (updateLast (appendSpec tag content) tasks, tools, imts)
    else
      let found :=
        match matchStepNumber line.data with
        | some (n, rest) => some (n, jsTrim ⟨rest⟩)
        | none => tableColumnSplit line
      match found with
      | some (n, activity) =>
        (tasks ++ [{ task_no := formatTaskNum n aid, type := "Operation",
                     eta_sec := "", description := docTitle, activity := activity,
                     specification := "", attachment := "", hasImage := false }],
         tools, imts)
      | none => acc

/-- `extractTasksFromTable`. -/
def extractTasksFromTable (content : String) (docTitle : String) (aid : String)
    (toolsData : List ToolsRecord) (imtData : List IMTRecord) :
    List Task × List ToolsRecord × List IMTRecord :=
  let lines := ((splitLines content.data).map fun l => (⟨l⟩ : String)).filter
    fun s => jsTrim s ≠ ""
  (lines.drop (tableSkipLines lines)).foldl (tableLineStep docTitle aid)
    ([], toolsData, imtData)

/-! ## Aggressive strategy (`extractTasksAggressively`) -/

/-- `content.split(/\n\n|\r\n\r\n/)`: at each position the alternation
tries `\n\n` first, then `\r\n\r\n`. -/
def splitParas : List Char → List (List Char)
  | [] => [[]]
  | '\n' :: '\n' :: rest => [] :: splitParas rest
  | '\r' :: '\n' :: '\r' :: '\n' :: rest => [] :: splitParas rest
  | c :: rest =>
    match splitParas rest with
    | [] => [[c]]
    | l :: ls => (c :: l) :: ls

/-- `/^[A-Z][^\.]+\./`: an uppercase letter, at least one non-dot
character, then a dot. -/
def capSentenceTest (l : List Char) : Bool :=
  match l with
  | c :: rest =>
    c.isUpper &&
      (let x := rest.takeWhile fun d => d ≠ '.'
       !x.isEmpty && decide (x.length < rest.length))
  | [] => false

/-- `/^(Check|Ensure|Remove|Install|Attach|Connect|Verify|Place|Position)/`. -/
def actionVerbTest (l : List Char) : Bool :=
  ["Check", "Ensure", "Remove", "Install", "Attach", "Connect", "Verify",
    "Place", "Position"].any fun w => (csWord w.data l).isSome

/-- Loop state of the first aggressive pass. -/
structure AggState where
  tasks : List Task
  taskIndex : ℕ
  curNum : Option ℕ
  curSpec : String
  tools : List ToolsRecord
  imts : List IMTRecord
  deriving Repr, DecidableEq

/-- One paragraph of the first aggressive pass. -/
def aggStep (docTitle aid : String) (st : AggState) (para : String) : AggState :=
  let tp := jsTrim para
  if tp.length < 10 || tp = docTitle || isHeaderRowS tp then st
  else
    let isTools := (matchToolsTag tp.data).isSome
    let isIMT := (matchIMTTag tp.data).isSome
    let isKey := (matchKeyPointsTag tp.data).isSome
    let isNote := (matchNoteTag tp.data).isSome
    if (isTools || isIMT) && truthyNum st.curNum then
      let taskId := formatTaskNum (st.curNum.getD 0) aid
      if isTools then
        { st with tools := st.tools ++
            [{ task_no := taskId, tools := jsTrim ⟨(matchToolsTag tp.data).getD []⟩ }] }
      else
        { st with imts := st.imts ++
            [{ task_no := taskId, imt := jsTrim ⟨(matchIMTTag tp.data).getD []⟩ }] }
    else if (isKey || isNote) && truthyNum st.curNum then
      let tag := if isKey then "Key points: " else "Note: "
      let content :=
        jsTrim ⟨((if isKey then matchKeyPointsTag tp.data else matchNoteTag tp.data)).getD []⟩
      let spec' :=
        if st.curSpec ≠ "" then st.curSpec ++ "\n" ++ tag ++ content
        else tag ++ content
      let tasks' :=
        if !st.tasks.isEmpty && lastTaskNo st.tasks = formatTaskNum (st.curNum.getD 0) aid
        then updateLast (fun t => { t with specification := spec' }) st.tasks
        else st.tasks
      { st with curSpec := spec', tasks := tasks' }
    else
      let stepRes :=
        match matchStepNumber tp.data with
        | some (n, rest) => some (n, jsTrim ⟨rest⟩, st.taskIndex.max (n + 1))
        | none =>
          let mightBeTask := capSentenceTest tp.data || actionVerbTest tp.data
          if mightBeTask && tp.length > 20 then
            some (st.taskIndex, tp, st.taskIndex + 1)
          else none
      match stepRes with
      | some (n, restOfText, idx') =>
        { st with
          taskIndex := idx',
          curNum := some n,
          tasks := st.tasks ++
            [{ task_no := formatTaskNum n aid, type := "Operation", eta_sec := "",
               description := docTitle, activity := restOfText,
               specification := "", attachment := "", hasImage := false }] }
      | none => st

/-- One paragraph of the desperate second pass (every long enough,
non-title, non-header, non-special paragraph becomes a sequential task). -/
def aggDesperateStep (docTitle aid : String) (acc : List Task × ℕ) (para : String) :
    List Task × ℕ :=
  let (tasks, index) := acc
  let tp := jsTrim para
  if tp.length < 15 || tp = docTitle || isHeaderRowS tp then acc
  else if (matchToolsTag tp.data).isSome || (matchIMTTag tp.data).isSome ||
      (matchKeyPointsTag tp.data).isSome || (matchNoteTag tp.data).isSome then acc
  else
    (tasks ++ [{ task_no := formatTaskNum index aid, type := "Operation",
                 eta_sec := "", description := docTitle, activity := tp,
                 specification := "", attachment := "", hasImage := false }],
     index + 1)

/-- `extractTasksAggressively`. -/
def extractTasksAggressively (content : String) (docTitle : String) (aid : String)
    (toolsData : List ToolsRecord) (imtData : List IMTRecord) :
    List Task × List ToolsRecord × List IMTRecord :=
  let paragraphs := ((splitParas content.data).map fun l => (⟨l⟩ : String)).filter
    fun p => jsTrim p ≠ ""
  let st := paragraphs.foldl (aggStep docTitle aid)
    ⟨[], 1, none, "", toolsData, imtData⟩
  if st.tasks.isEmpty then
    ((paragraphs.foldl (aggDesperateStep docTitle aid) ([], 1)).1, st.tools, st.imts)
  else (st.tasks, st.tools, st.imts)

/-! ## Image extraction core (`extractImages`)

The archive I/O (JSZip, blobs) is external; what matters to the claims is
the pure id-assignment logic.  The media files discovered under
`word/media/` are modelled by their names in enumeration order. -/

def getContentTypeFromPath (path : String) : String :=
  let ext := ((splitOnChar '.' path.data).getLastD []).map Char.toLower
  if ext = "png".data then "image/png"
  else if ext = "jpg".data || ext = "jpeg".data then "image/jpeg"
  else if ext = "gif".data then "image/gif"
  else if ext = "bmp".data then "image/bmp"
  else if ext = "svg".data then "image/svg+xml"
  else "application/octet-stream"

/-- Insertion into an ascending list; `foldr` of it is an insertion sort,
matching `Array.from(figureNumbers).sort((a, b) => a - b)` on the
duplicate-free number set. -/
def insertAsc (n : ℕ) : List ℕ → List ℕ
  | [] => [n]
  | m :: rest => if n ≤ m then n :: m :: rest else m :: insertAsc n rest

def sortAsc (l : List ℕ) : List ℕ :=
  l.foldr insertAsc []

/-- `Set` insertion order dedup (first occurrences). -/
def dedupNats (l : List ℕ) : List ℕ :=
  l.foldl (fun acc n => if n ∈ acc then acc else acc ++ [n]) []

/-- The figure numbers referenced in the HTML rendering, collected with the
head-case-insensitive patterns of `extractImages`, de-duplicated and sorted
ascending (`sortedFigureNumbers`). -/
def collectHtmlFigureNums (html : String) : List ℕ :=
  sortAsc (dedupNats
    (scanFigsHc "figure" false html.data ++ scanFigsHc "fig" true html.data ++
      scanFigsHc "illustration" false html.data ++ scanFigsHc "photo" false html.data ++
      scanFigsHc "picture" false html.data ++ scanFigsHc "image" false html.data))

/-- The id-assignment of `extractImages`: sorted figure numbers are zipped
positionally against the media files; leftover media files get sequential
numbers after the maximum referenced figure; with no figure references at
all, every media file gets its 1-based position. -/
def assignImageIds (aid : String) (media : List String) (html : String) :
    List ImageRecord :=
  let sortedFigs := collectHtmlFigureNums html
  if !sortedFigs.isEmpty && !media.isEmpty then
    let part1 := sortedFigs.enum.filterMap fun (idx, fig) =>
      (media.get? idx).map fun nm =>
        { task_no := formatImageId fig aid, imageName := nm,
          contentType := getContentTypeFromPath nm : ImageRecord }
    let part2 :=
      if media.length > sortedFigs.length then
        (List.range (media.length - sortedFigs.length)).filterMap fun j =>
          (media.get? (sortedFigs.length + j)).map fun nm =>
            { task_no := formatImageId (sortedFigs.getLastD 0 + 1 + j) aid,
              imageName := nm,
              contentType := getContentTypeFromPath nm : ImageRecord }
      else []
    part1 ++ part2
  else
    media.enum.map fun (idx, nm) =>
      { task_no := formatImageId (idx + 1) aid, imageName := nm,
        contentType := getContentTypeFromPath nm }

/-! ## Document title detection and the strategy cascade (`processDocument`) -/

/-- The title scan: the first of the first five lines that is not a header
row and has raw length strictly between 5 and 100 becomes the title (lines
after it feed the paragraph strategy); otherwise the first line does. -/
def findTitleAux : List String → ℕ → Option (String × ℕ)
  | [], _ => none
  | l :: rest, i =>
    if i ≥ 5 then none
    else if !isHeaderRowS l && decide (5 < l.length) && decide (l.length < 100) then
      some (jsTrim l, i + 1)
    else findTitleAux rest (i + 1)

def findDocTitle (lines : List String) : String × ℕ :=
  match findTitleAux lines 0 with
  | some r => r
  | none =>
    match lines with
    | l :: _ => (jsTrim l, 1)
    | [] => ("", 0)

/-- One extraction strategy as run by the cascade: it receives the
accumulated tools/IMT side tables and returns tasks plus the updated
tables. -/
def Strategy : Type :=
  List ToolsRecord → List IMTRecord →
    List Task × List ToolsRecord × List IMTRecord

/-- The `for (const method of methodsToTry)` loop: run each strategy,
stop at the first whose task list is non-empty, threading the side
tables (`toolsData = result.toolsData || toolsData`). -/
def runCascade : List (String × Strategy) → List ToolsRecord → List IMTRecord →
    List Task × List ToolsRecord × List IMTRecord
  | [], td, im => ([], td, im)
  | (_, f) :: rest, td, im =>
    let r := f td im
    if !r.1.isEmpty then r
    else runCascade rest r.2.1 r.2.2

/-- `methodsToTry` after the reordering on `detectTableStructure`. -/
def methodList (text : String) (lines : List String) (docTitle : String)
    (startLineIndex : ℕ) (aid : String) : List (String × Strategy) :=
  let tbl : String × Strategy :=
    ("table", fun td im => extractTasksFromTable text docTitle aid td im)
  let par : String × Strategy :=
    ("paragraph", fun td im =>
      extractTasks (lines.drop startLineIndex) docTitle aid td im)
  let agg : String × Strategy :=
    ("aggressive", fun td im => extractTasksAggressively text docTitle aid td im)
  if detectTableStructure text then [tbl, par, agg] else [par, tbl, agg]

/-- The result record of `processDocument`. -/
structure ExtractedContent where
  docTitle : String
  tasks : List Task
  images : List ImageRecord
  toolsData : List ToolsRecord
  imtData : List IMTRecord
  deriving Repr, DecidableEq

/-- The processing pipeline of `processDocument` on already extracted text:
`text` is `mammoth.extractRawText(...).value`, `html` is the
`convertToHtml` rendering, `media` the media file names in archive
enumeration order.  `none` models the empty-document error throw. -/
def processDocumentModel (text html : String) (media : List String)
    (aid : String) : Option ExtractedContent :=
  let lines := ((splitLines text.data).map fun l => (⟨l⟩ : String)).filter
    fun s => jsTrim s ≠ ""
  if lines.isEmpty then none
  else
    let tp := findDocTitle lines
    let images := assignImageIds aid media html
    let r := runCascade (methodList text lines tp.1 tp.2 aid) [] []
    some { docTitle := tp.1, tasks := mapImagesToTasks r.1 images text,
           images := images, toolsData := r.2.1, imtData := r.2.2 }

/-- The caller (`Index.tsx`) overwrites every task's `description` with the
operator-supplied assembly name before showing/exporting the tasks. -/
def applyAssemblyName (assemblyName : String) (c : ExtractedContent) :
    ExtractedContent :=
  { c with tasks := c.tasks.map fun t => { t with description := assemblyName } }

/-! ## Lemmas about the mapping object -/

theorem lookupAssoc_insertAssoc_self (k : String) (v : List String)
    (m : List (String × List String)) :
    lookupAssoc (insertAssoc k v m) k = some v := by
  induction m with
  | nil => simp [insertAssoc, lookupAssoc]
  | cons p rest ih =>
    obtain ⟨k', v'⟩ := p
    by_cases hk : k' = k
    · simp [insertAssoc, lookupAssoc, hk]
    · simp [insertAssoc, lookupAssoc, hk, ih]

theorem lookupAssoc_insertAssoc_other {k k' : String} (hne : k' ≠ k)
    (v : List String) (m : List (String × List String)) :
    lookupAssoc (insertAssoc k v m) k' = lookupAssoc m k' := by
  have hkk : ¬ k = k' := fun h => hne h.symm
  induction m with
  | nil => simp [insertAssoc, lookupAssoc, hkk]
  | cons p rest ih =>
    obtain ⟨k0, v0⟩ := p
    by_cases hk : k0 = k
    · subst hk
      simp [insertAssoc, lookupAssoc, hkk]
    · simp [insertAssoc, lookupAssoc, hk, ih]

theorem lookupAssoc_insertAssoc_inv {k' : String} {v' : List String}
    {m : List (String × List String)} {k : String} {v : List String}
    (h : lookupAssoc (insertAssoc k' v' m) k = some v) :
    (k' = k ∧ v = v') ∨ lookupAssoc m k = some v := by
  induction m with
  | nil =>
    simp only [insertAssoc, lookupAssoc] at h
    split at h
    · rename_i hk
      exact Or.inl ⟨hk, by simpa using h.symm⟩
    · simp at h
  | cons p rest ih =>
    obtain ⟨k0, v0⟩ := p
    by_cases hk : k0 = k'
    · subst hk
      simp only [insertAssoc, if_pos rfl, lookupAssoc] at h
      split at h
      · rename_i hkk
        exact Or.inl ⟨hkk, by simpa using h.symm⟩
      · exact Or.inr (by simpa [lookupAssoc, *] using h)
    · simp only [insertAssoc, if_neg hk, lookupAssoc] at h
      split at h
      · exact Or.inr (by simpa [lookupAssoc, *] using h)
      · rcases ih h with h1 | h2
        · exact Or.inl h1
        · exact Or.inr (by simpa [lookupAssoc, *] using h2)

theorem buildMapAux_lookup_not_mem {f : Task → ℕ → Option (List String)} :
    ∀ (ts : List Task) (i : ℕ) (m : List (String × List String)) (k : String),
      k ∉ ts.map Task.task_no →
      lookupAssoc (buildMapAux f ts i m) k = lookupAssoc m k := by
  intro ts
  induction ts with
  | nil => intro i m k _; rfl
  | cons t rest ih =>
    intro i m k hk
    simp only [List.map_cons, List.mem_cons, not_or] at hk
    rw [buildMapAux]
    rw [ih (i + 1) _ k hk.2]
    cases hf : f t i with
    | none => rfl
    | some v => exact lookupAssoc_insertAssoc_other (fun h => hk.1 h) v m

theorem buildMapAux_lookup_get {f : Task → ℕ → Option (List String)} :
    ∀ (ts : List Task) (i : ℕ) (m : List (String × List String)) (j : ℕ) (t : Task),
      ts.get? j = some t → (ts.map Task.task_no).Nodup →
      lookupAssoc (buildMapAux f ts i m) t.task_no =
        (match f t (i + j) with
         | some v => some v
         | none => lookupAssoc m t.task_no) := by
  intro ts
  induction ts with
  | nil => intro i m j t hj _; simp at hj
  | cons hd rest ih =>
    intro i m j t hj hnd
    simp only [List.map_cons, List.nodup_cons] at hnd
    cases j with
    | zero =>
      have ht : hd = t := by simpa using hj
      subst ht
      rw [buildMapAux, buildMapAux_lookup_not_mem rest (i + 1) _ _ hnd.1]
      simp only [Nat.add_zero]
      cases hf : f hd i with
      | none => simp
      | some v => simp [lookupAssoc_insertAssoc_self]
    | succ j' =>
      simp only [List.get?_cons_succ] at hj
      have htmem : t.task_no ∈ rest.map Task.task_no :=
        List.mem_map_of_mem Task.task_no (List.get?_mem hj)
      have hne : hd.task_no ≠ t.task_no := fun h => hnd.1 (h ▸ htmem)
      rw [buildMapAux]
      rw [ih (i + 1) _ j' t hj hnd.2]
      have harith : i + 1 + j' = i + (j' + 1) := by omega
      rw [harith]
      cases hf : f t (i + (j' + 1)) with
      | some v => rfl
      | none =>
        cases hhd : f hd i with
        | none => rfl
        | some v => exact lookupAssoc_insertAssoc_other (fun h => hne h.symm) v m

theorem buildMapAux_all_none {f : Task → ℕ → Option (List String)} :
    ∀ (ts : List Task) (i : ℕ) (m : List (String × List String)),
      (∀ t ∈ ts, ∀ j, f t j = none) → buildMapAux f ts i m = m := by
  intro ts
  induction ts with
  | nil => intro i m _; rfl
  | cons t rest ih =>
    intro i m h
    rw [buildMapAux, h t (by simp) i]
    exact ih (i + 1) m fun t' ht' => h t' (by simp [ht'])

theorem buildMapAux_lookup_inv {f : Task → ℕ → Option (List String)} :
    ∀ (ts : List Task) (i : ℕ) (m : List (String × List String)) (k : String)
      (v : List String),
      lookupAssoc (buildMapAux f ts i m) k = some v →
      lookupAssoc m k = some v ∨ ∃ t ∈ ts, ∃ j, f t j = some v := by
  intro ts
  induction ts with
  | nil => intro i m k v h; exact Or.inl h
  | cons t rest ih =>
    intro i m k v h
    rw [buildMapAux] at h
    rcases ih (i + 1) _ k v h with h1 | h2
    · cases hf : f t i with
      | none => rw [hf] at h1; exact Or.inl h1
      | some w =>
        rw [hf] at h1
        rcases lookupAssoc_insertAssoc_inv h1 with ⟨_, hv⟩ | hm
        · exact Or.inr ⟨t, by simp, i, hv ▸ hf⟩
        · exact Or.inl hm
    · obtain ⟨t', ht', j, hj⟩ := h2
      exact Or.inr ⟨t', by simp [ht'], j, hj⟩

/-! ## Lemmas about `joinComma`, `pushUnique` and the collected figure ids -/

theorem joinComma_ne_empty {l : List String} (hne : l ≠ [])
    (hall : ∀ s ∈ l, s ≠ "") : joinComma l ≠ "" := by
  cases l with
  | nil => exact absurd rfl hne
  | cons s rest =>
    cases rest with
    | nil => simpa [joinComma] using hall s (by simp)
    | cons s' rest' =>
      simp only [joinComma]
      intro h
      have hlen := congrArg String.length h
      have h2 : (", " : String).length = 2 := rfl
      have h0 : ("" : String).length = 0 := rfl
      simp only [String.length_append, h2, h0] at hlen
      omega

theorem mem_foldl_pushUnique :
    ∀ (l : List String) (acc : List String) (s : String),
      s ∈ l.foldl pushUnique acc → s ∈ acc ∨ s ∈ l := by
  intro l
  induction l with
  | nil => intro acc s h; exact Or.inl h
  | cons x rest ih =>
    intro acc s h
    rw [List.foldl_cons] at h
    rcases ih _ s h with h1 | h2
    · unfold pushUnique at h1
      split at h1
      · exact Or.inl h1
      · rcases List.mem_append.mp h1 with h3 | h3
        · exact Or.inl h3
        · simp at h3; simp [h3]
    · simp [h2]

theorem nodup_foldl_pushUnique :
    ∀ (l : List String) (acc : List String), acc.Nodup →
      (l.foldl pushUnique acc).Nodup := by
  intro l
  induction l with
  | nil => intro acc h; exact h
  | cons x rest ih =>
    intro acc h
    rw [List.foldl_cons]
    apply ih
    unfold pushUnique
    split
    · exact h
    · rename_i hx
      simpa [List.nodup_append] using ⟨h, fun h' => hx h'⟩

theorem formatImageId_ne_empty (n : ℕ) (aid : String) : formatImageId n aid ≠ "" := by
  unfold formatImageId
  intro h
  have hlen := congrArg String.length h
  have h3 : ("-0-" : String).length = 3 := rfl
  have h0 : ("" : String).length = 0 := rfl
  simp only [String.length_append, h3, h0] at hlen
  omega

theorem collectTaskFigures_all_ne_empty (t : Task) :
    ∀ s ∈ collectTaskFigures t, s ≠ "" := by
  intro s hs
  rcases mem_foldl_pushUnique _ [] s hs with h | h
  · simp at h
  · obtain ⟨n, _, hn⟩ := List.mem_map.mp h
    exact hn ▸ formatImageId_ne_empty n _

theorem collectTaskFigures_nodup (t : Task) : (collectTaskFigures t).Nodup :=
  nodup_foldl_pushUnique _ [] List.nodup_nil

/-! ## Claim theorems -/

/-- Erase exactly the two fields the mapper writes, for the frame
statement. -/
def eraseImageFields (t : Task) : Task :=
  { t with attachment := "", hasImage := false }

/-- C10: the Image-to-Task Mapper returns a task list of exactly the same
length and order as its input, and every field other than `attachment` and
`hasImage` (task number, type, eta, description, activity, specification)
is identical to the corresponding input task's field. -/
theorem C10_mapper_frame (tasks : List Task) (images : List ImageRecord)
    (documentText : String) :
    (mapImagesToTasks tasks images documentText).length = tasks.length ∧
    (mapImagesToTasks tasks images documentText).map eraseImageFields =
      tasks.map eraseImageFields := by
  constructor
  · simp [mapImagesToTasks]
  · simp only [mapImagesToTasks, List.map_map]
    exact List.map_congr_left fun t _ => rfl

/-- C6 (amended): in the primary method the computed image id of every
figure number matched in a task's activity is appended to that task's
attachment list *unconditionally* — whether or not an `ImageRecord` with
that task number exists — and the per-task list is de-duplicated.  Stated
for task lists without duplicate task numbers (the mapping object is keyed
by task number). -/
theorem C6_primary_attachments (tasks : List Task) (images : List ImageRecord)
    (documentText : String) (hnd : (tasks.map Task.task_no).Nodup)
    (t : Task) (ht : t ∈ tasks) (hne : collectTaskFigures t ≠ []) :
    ∃ t' ∈ mapImagesToTasks tasks images documentText,
      t'.task_no = t.task_no ∧
      t'.attachment = joinComma (collectTaskFigures t) ∧
      t'.hasImage = true ∧ (collectTaskFigures t).Nodup := by
  obtain ⟨j, hj⟩ := List.get?_of_mem ht
  have hlook : lookupAssoc (buildMap primaryFigsFn tasks) t.task_no =
      some (collectTaskFigures t) := by
    rw [buildMap, buildMapAux_lookup_get tasks 0 [] j t hj hnd]
    simp only [Nat.zero_add, primaryFigsFn]
    rw [if_neg (by simpa [List.isEmpty_iff] using hne)]
  have hprimne : ¬ (buildMap primaryFigsFn tasks).isEmpty = true := by
    rw [List.isEmpty_iff]
    intro h
    rw [h] at hlook
    simp [lookupAssoc] at hlook
  have hmapping : taskImageMappingOf tasks images = buildMap primaryFigsFn tasks := by
    rw [taskImageMappingOf]
    simp only [Bool.and_eq_true, Bool.not_eq_true']
    rw [if_neg]
    intro hcond
    exact hprimne hcond.1.1
  refine ⟨_, List.mem_map_of_mem _ ht, rfl, ?_, ?_, collectTaskFigures_nodup t⟩
  · simp only [hmapping, hlook, Option.getD_some]
  · simp only [hmapping, hlook, Option.getD_some]
    simpa [List.isEmpty_iff] using hne

/-- C9: in the mapper's output, `hasImage` is true exactly when
`attachment` is a non-empty string (assuming, as `extractImages`
guarantees, that every extracted image id is non-empty). -/
theorem C9_hasImage_iff_attachment (tasks : List Task) (images : List ImageRecord)
    (documentText : String) (himg : ∀ im ∈ images, im.task_no ≠ "") :
    ∀ t' ∈ mapImagesToTasks tasks images documentText,
      (t'.hasImage = true ↔ t'.attachment ≠ "") := by
  intro t' ht'
  simp only [mapImagesToTasks, List.mem_map] at ht'
  obtain ⟨t, ht, rfl⟩ := ht'
  simp only
  cases hlook : lookupAssoc (taskImageMappingOf tasks images) t.task_no with
  | none => simp [joinComma]
  | some v =>
    have hv : v ≠ [] ∧ ∀ s ∈ v, s ≠ "" := by
      rw [taskImageMappingOf] at hlook
      by_cases hcond : ((buildMap primaryFigsFn tasks).isEmpty && !tasks.isEmpty &&
          !images.isEmpty) = true
      · rw [if_pos hcond] at hlook
        rcases buildMapAux_lookup_inv tasks 0 [] _ v hlook with h | ⟨t'', _, i, hfi⟩
        · simp [lookupAssoc] at h
        · simp only [evenFigsFn] at hfi
          split at hfi
          · rename_i hlt
            have hv := (Option.some.injEq _ _).mp hfi
            subst hv
            constructor
            · intro hnil
              have := congrArg List.length hnil
              simp only [List.length_take, List.length_drop, List.length_map,
                List.length_nil] at this
              have himne : images ≠ [] := by
                simp only [Bool.and_eq_true, List.isEmpty_eq_false,
                  Bool.not_eq_true'] at hcond
                simpa [List.isEmpty_iff] using hcond.2
              have htne : tasks ≠ [] := by
                simp only [Bool.and_eq_true, List.isEmpty_eq_false,
                  Bool.not_eq_true'] at hcond
                simpa [List.isEmpty_iff] using hcond.1.2
              have hT : 0 < tasks.length := List.length_pos.mpr htne
              have hI : 0 < images.length := List.length_pos.mpr himne
              have hc : 0 < imagesPerTaskOf tasks images := by
                unfold imagesPerTaskOf
                have : tasks.length ≤ images.length + tasks.length - 1 := by omega
                exact Nat.le_div_iff_mul_le hT |>.mpr (by omega)
              omega
            · intro s hs
              have hsub : s ∈ images.map fun im => im.task_no :=
                List.mem_of_mem_drop (List.mem_of_mem_take hs)
              obtain ⟨im, him, rfl⟩ := List.mem_map.mp hsub
              exact himg im him
          · simp at hfi
      · rw [if_neg hcond] at hlook
        rcases buildMapAux_lookup_inv tasks 0 [] _ v hlook with h | ⟨t'', _, i, hfi⟩
        · simp [lookupAssoc] at h
        · simp only [primaryFigsFn] at hfi
          split at hfi
          · simp at hfi
          · rename_i hfigs
            have hv := (Option.some.injEq _ _).mp hfi
            subst hv
            refine ⟨by simpa [List.isEmpty_iff] using hfigs, ?_⟩
            exact collectTaskFigures_all_ne_empty t''
    simp only [Option.getD_some]
    constructor
    · intro _
      exact joinComma_ne_empty hv.1 hv.2
    · intro _
      simpa [List.isEmpty_iff] using hv.1

/-- C6 (counterexample input): one task whose activity references figure 9
while the extracted image list is empty. -/
def c6Task : Task :=
  { task_no := "1.0.001", type := "Operation", eta_sec := "",
    description := "Doc", activity := "See Figure 9 here",
    specification := "", attachment := "", hasImage := false }

/-- C6 (counterexample): with an *empty* image list, the mapper still
appends the computed id `"1-0-009"` to the task's attachment — refuting
"appended only if an ImageRecord with that task-number exists". -/
theorem C6_counterexample :
    (mapImagesToTasks [c6Task] [] "").map (fun t => (t.attachment, t.hasImage)) =
      [("1-0-009", true)] ∧
    (([] : List ImageRecord).any fun im => im.task_no = "1-0-009") = false := by
  constructor
  · rfl
  · rfl

/-- C7: when the primary pass matched no figure reference in any task and
both lists are non-empty, images are distributed over the tasks in document
order in sequential blocks of `ceil(imageCount / taskCount)`: the task at
index `j` gets image ids `ids[j*c .. j*c + c)` (clipped at the end, empty
once `j*c` passes the image count), and `hasImage` is true exactly for the
tasks whose block is non-empty. -/
theorem C7_even_distribution (tasks : List Task) (images : List ImageRecord)
    (documentText : String) (hnd : (tasks.map Task.task_no).Nodup)
    (hprim : ∀ t ∈ tasks, collectTaskFigures t = [])
    (hT : tasks ≠ []) (hI : images ≠ []) :
    (mapImagesToTasks tasks images documentText).length = tasks.length ∧
    ∀ j : ℕ,
      ((mapImagesToTasks tasks images documentText).get? j).map
          (fun t => (t.attachment, t.hasImage)) =
        (tasks.get? j).map fun _ =>
          (joinComma (((images.map fun im => im.task_no).drop
              (j * imagesPerTaskOf tasks images)).take (imagesPerTaskOf tasks images)),
           decide (j * imagesPerTaskOf tasks images < images.length)) := by
  have hprimempty : buildMap primaryFigsFn tasks = [] := by
    rw [buildMap]
    exact buildMapAux_all_none tasks 0 [] fun t ht j => by
      simp [primaryFigsFn, hprim t ht, List.isEmpty_iff]
  have hmapping : taskImageMappingOf tasks images =
      buildMap (evenFigsFn tasks images) tasks := by
    rw [taskImageMappingOf, hprimempty]
    simp [List.isEmpty_iff, hT, hI]
  have hc : 0 < imagesPerTaskOf tasks images := by
    unfold imagesPerTaskOf
    have hTl : 0 < tasks.length := List.length_pos.mpr hT
    have hIl : 0 < images.length := List.length_pos.mpr hI
    exact Nat.le_div_iff_mul_le hTl |>.mpr (by omega)
  constructor
  · simp [mapImagesToTasks]
  · intro j
    cases hj : tasks.get? j with
    | none =>
      have hlen : tasks.length ≤ j := by
        by_contra hlt
        rw [List.get?_eq_get (by omega)] at hj
        simp at hj
      have : (mapImagesToTasks tasks images documentText).get? j = none := by
        rw [List.get?_eq_none]
        simp only [mapImagesToTasks, List.length_map]
        exact hlen
      rw [this]
      rfl
    | some t =>
      have hout : (mapImagesToTasks tasks images documentText).get? j =
          some ({ t with
            attachment := joinComma
              ((lookupAssoc (taskImageMappingOf tasks images) t.task_no).getD []),
            hasImage :=
              !((lookupAssoc (taskImageMappingOf tasks images) t.task_no).getD
                []).isEmpty }) := by
        simp only [mapImagesToTasks, List.get?_map, hj, Option.map_some']
      have hlook : lookupAssoc (taskImageMappingOf tasks images) t.task_no =
          (match evenFigsFn tasks images t j with
           | some v => some v
           | none => none) := by
        rw [hmapping, buildMap, buildMapAux_lookup_get tasks 0 [] j t hj hnd]
        simp only [Nat.zero_add]
        cases evenFigsFn tasks images t j <;> simp [lookupAssoc]
      simp only [hout, hj, Option.map_some']
      unfold evenFigsFn at hlook
      by_cases hlt : j * imagesPerTaskOf tasks images < images.length
      · rw [if_pos hlt] at hlook
        simp only [hlook, Option.getD_some]
        have hblock : (((images.map fun im => im.task_no).drop
            (j * imagesPerTaskOf tasks images)).take
              (imagesPerTaskOf tasks images)).isEmpty = false := by
          rw [List.isEmpty_eq_false]
          intro hnil
          have := congrArg List.length hnil
          simp only [List.length_take, List.length_drop, List.length_map,
            List.length_nil] at this
          omega
        simp [hblock, hlt]
      · rw [if_neg hlt] at hlook
        simp only [hlook, Option.getD_none]
        have hdrop : (images.map fun im => im.task_no).drop
            (j * imagesPerTaskOf tasks images) = [] := by
          rw [List.drop_eq_nil_iff_le]
          simpa using Nat.le_of_not_lt hlt
        simp [joinComma, hdrop, hlt]

/-- C2: `formatTaskNumber` returns the assembly id, `".0."` and the step
index zero-padded to 3 digits; `formatTaskNumber(7, "1") = "1.0.007"`; it
is a pure total function and a 4-digit step index is not truncated
(`formatTaskNumber(1234, "1") = "1.0.1234"`); and for a fixed assembly id
it is injective on step indices (in particular on `1 ≤ n ≤ 999`). -/
theorem C2_formatTaskNumber (aid : String) (n m : ℕ)
    (_hn : 1 ≤ n ∧ n ≤ 999) (_hm : 1 ≤ m ∧ m ≤ 999) :
    formatTaskNum 7 "1" = "1.0.007" ∧
    formatTaskNum 1234 "1" = "1.0.1234" ∧
    formatTaskNum n aid = aid ++ ".0." ++ padStart (natToString n) 3 '0' ∧
    (formatTaskNum n aid = formatTaskNum m aid → n = m) :=
  ⟨by decide, by decide, rfl, formatTaskNum_inj aid n m⟩

theorem C2_formatTaskNumber_witness :
    formatTaskNum 7 "1" = "1.0.007" ∧
    formatTaskNum 1234 "1" = "1.0.1234" ∧
    formatTaskNum 7 "1" = "1" ++ ".0." ++ padStart (natToString 7) 3 '0' ∧
    (formatTaskNum 7 "1" = formatTaskNum 7 "1" → 7 = 7) :=
  C2_formatTaskNumber "1" 7 7 ⟨by decide, by decide⟩ ⟨by decide, by decide⟩

/-- C3 (amended): the matcher tries the nine patterns in their listed order
and returns the first match (`matchStepNumber` is `findSome?` over the
ordered list, and a line matching no pattern yields `none`, never an
error); on a line containing no whitespace at all, the patterns that end in
`\s+` — P1 `N.`, P2 `Step N.`, P3 `N)`, P4 letter-prefixed `N.`/`N)`, P5
`Task N.` and P7 `N .`/`N )` — cannot match.  (The `Sl. No.`, `SL NO` and
`Procedure` patterns do *not* require whitespace after their delimiter;
see the counterexample.) -/
theorem C3_step_pattern_matcher (line : String)
    (hws : ∀ c ∈ line.data, isJsWs c = false) :
    matchStepNumber line.data =
      stepNumberPatterns.findSome? (fun p => p line.data) ∧
    matchP1 line.data = none ∧ matchP2 line.data = none ∧
    matchP3 line.data = none ∧ matchP4 line.data = none ∧
    matchP5 line.data = none ∧ matchP7 line.data = none := by
  have noWs : ∀ c ∈ line.data, ¬ isJsWs c = true := by
    intro c hc h
    rw [hws c hc] at h
    exact Bool.false_ne_true h
  refine ⟨matchStepNumber_eq_findSome line.data, ?_, ?_, ?_, ?_, ?_, ?_⟩
  · cases h : matchP1 line.data with
    | none => rfl
    | some p =>
      obtain ⟨c, hc, hcw⟩ := matchP1_requires_ws (n := p.1) (r := p.2) (by simpa using h)
      exact absurd hcw (noWs c hc)
  · cases h : matchP2 line.data with
    | none => rfl
    | some p =>
      obtain ⟨c, hc, hcw⟩ := matchP2_requires_ws (n := p.1) (r := p.2) (by simpa using h)
      exact absurd hcw (noWs c hc)
  · cases h : matchP3 line.data with
    | none => rfl
    | some p =>
      obtain ⟨c, hc, hcw⟩ := matchP3_requires_ws (n := p.1) (r := p.2) (by simpa using h)
      exact absurd hcw (noWs c hc)
  · cases h : matchP4 line.data with
    | none => rfl
    | some p =>
      obtain ⟨c, hc, hcw⟩ := matchP4_requires_ws (n := p.1) (r := p.2) (by simpa using h)
      exact absurd hcw (noWs c hc)
  · cases h : matchP5 line.data with
    | none => rfl
    | some p =>
      obtain ⟨c, hc, hcw⟩ := matchP5_requires_ws (n := p.1) (r := p.2) (by simpa using h)
      exact absurd hcw (noWs c hc)
  · cases h : matchP7 line.data with
    | none => rfl
    | some p =>
      obtain ⟨c, hc, hcw⟩ := matchP7_requires_ws (n := p.1) (r := p.2) (by simpa using h)
      exact absurd hcw (noWs c hc)

theorem C3_step_pattern_matcher_witness :
    matchStepNumber "Sl.No.5".data =
      stepNumberPatterns.findSome? (fun p => p "Sl.No.5".data) ∧
    matchP1 "Sl.No.5".data = none ∧ matchP2 "Sl.No.5".data = none ∧
    matchP3 "Sl.No.5".data = none ∧ matchP4 "Sl.No.5".data = none ∧
    matchP5 "Sl.No.5".data = none ∧ matchP7 "Sl.No.5".data = none :=
  C3_step_pattern_matcher "Sl.No.5" (by decide)

/-- C3 (counterexample): the line `"Sl.No.5"` contains no whitespace at
all, yet the `Sl. No.` pattern matches it and the matcher returns capture
5 — refuting "every pattern in the list requires whitespace after its
delimiter in order to match". -/
theorem C3_counterexample :
    matchStepNumber "Sl.No.5".data = some (5, []) ∧
    ("Sl.No.5".data.all fun c => !isJsWs c) = true := by
  constructor
  · rfl
  · rfl

/-- C8 (code bug): the five-line content below has two lines
(`"\ta\tb"` and `"\tc\td"`) matching the tab indicator, which is strictly
more than 20 % of 5 lines, so the stateless reading classifies it as
table-like; but the implementation reuses the same `g`-flag regex objects
across lines, and the `lastIndex` left by the first match makes the test
miss the second line, so `detectTableStructure` counts only one line and
returns `false`. -/
def c8Content : String := "\ta\tb\n\tc\td\nx\ny\nz"

theorem C8_stateful_detector :
    detectTableStructure c8Content = false ∧
    detectTableStructureSpec c8Content = true ∧
    ((splitLines c8Content.data).filter lineMatchesIndicator).length = 2 ∧
    (splitLines c8Content.data).length = 5 := by
  refine ⟨rfl, rfl, rfl, rfl⟩

/-! ### The end-to-end scenario input (spec §8, claim C1) -/

/-- The scenario document text. -/
def c1Text : String :=
  "Title\n1. Open the panel.\n2. See Figure 1 for wiring.\nTools used: screwdriver\n"

/-- The HTML rendering of the same document: one `"Figure 1"` reference. -/
def c1Html : String :=
  "<p>Title</p><p>1. Open the panel.</p><p>2. See Figure 1 for wiring.</p><p>Tools used: screwdriver</p>"

/-- One media file in the container. -/
def c1Media : List String := ["image1.png"]

/-- A constant strategy returning one task (used to exercise the cascade
policy in the C4 witness). -/
def constStrategy : Strategy := fun td im => ([c6Task], td, im)

/-- A strategy returning no tasks. -/
def emptyStrategy : Strategy := fun td im => ([], td, im)

/-- C4: the pipeline asks the Structure Detector first and orders the three
strategies accordingly (table first when table-like, else paragraph first,
aggressive always last); the cascade loop stops at the first strategy whose
task list is non-empty — its result is returned and the strategies after it
are never run (the result does not depend on them) — and a strategy
returning no tasks only passes its side tables on to the next one. -/
theorem C4_strategy_cascade (text : String) (lines : List String)
    (docTitle : String) (si : ℕ) (aid : String) :
    ((methodList text lines docTitle si aid).map Prod.fst =
        if detectTableStructure text then ["table", "paragraph", "aggressive"]
        else ["paragraph", "table", "aggressive"]) ∧
    (∀ (nm : String) (f : Strategy) (rest rest' : List (String × Strategy))
        (td : List ToolsRecord) (im : List IMTRecord),
        (f td im).1 ≠ [] →
        runCascade ((nm, f) :: rest) td im = f td im ∧
        runCascade ((nm, f) :: rest) td im = runCascade ((nm, f) :: rest') td im) ∧
    (∀ (nm : String) (f : Strategy) (rest : List (String × Strategy))
        (td : List ToolsRecord) (im : List IMTRecord),
        (f td im).1 = [] →
        runCascade ((nm, f) :: rest) td im =
          runCascade rest (f td im).2.1 (f td im).2.2) := by
  refine ⟨?_, ?_, ?_⟩
  · unfold methodList
    by_cases h : detectTableStructure text <;> simp [h]
  · intro nm f rest rest' td im hne
    have hb : (f td im).1.isEmpty = false := by simpa [List.isEmpty_iff] using hne
    have heq : ∀ r : List (String × Strategy),
        runCascade ((nm, f) :: r) td im = f td im := by
      intro r
      rw [runCascade]
      simp [hb]
    exact ⟨heq rest, (heq rest).trans (heq rest').symm⟩
  · intro nm f rest td im hemp
    have hb : (f td im).1.isEmpty = true := by simpa [List.isEmpty_iff] using hemp
    rw [runCascade]
    simp only [hb]
    rfl

theorem C4_strategy_cascade_witness :
    ((methodList c1Text [] "" 0 "1").map Prod.fst =
        if detectTableStructure c1Text then ["table", "paragraph", "aggressive"]
        else ["paragraph", "table", "aggressive"]) ∧
    (runCascade [("paragraph", constStrategy), ("table", emptyStrategy)] [] [] =
        constStrategy [] [] ∧
      runCascade [("paragraph", constStrategy), ("table", emptyStrategy)] [] [] =
        runCascade [("paragraph", constStrategy)] [] []) ∧
    runCascade [("table", emptyStrategy), ("paragraph", constStrategy)] [] [] =
      runCascade [("paragraph", constStrategy)] (emptyStrategy [] []).2.1
        (emptyStrategy [] []).2.2 := by
  obtain ⟨h1, h2, h3⟩ := C4_strategy_cascade c1Text [] "" 0 "1"
  exact ⟨h1,
    h2 "paragraph" constStrategy [("table", emptyStrategy)] [] [] [] (by decide),
    h3 "table" emptyStrategy [("paragraph", constStrategy)] [] [] (by decide)⟩

/-- C1 (counterexample): on the scenario input the pipeline yields exactly
*one* task, not two, and its attachment is `"1-0-001"` (the dash image-id
format), not `"1.0.001"`.  The title heuristic is the culprit for the
count: `"Title"` has length 5, failing the `length > 5` test, so
`"1. Open the panel."` becomes the document title and line 1 never reaches
the paragraph extractor. -/
theorem C1_counterexample :
    (processDocumentModel c1Text c1Html c1Media "1").map
        (fun c => (c.tasks.length, c.tasks.map fun t => t.attachment,
          c.docTitle)) =
      some (1, ["1-0-001"], "1. Open the panel.") := by
  rfl

/-- C1 (amended): the scenario yields exactly one task, numbered
`"1.0.002"`, with description `"Panel Assembly"` (after the caller
overwrites descriptions with the assembly name), activity
`"See Figure 1 for wiring."`, attachment `"1-0-001"` and `hasImage` true;
the single ToolsRecord is keyed to `"1.0.002"` with tools
`"screwdriver"`; no task is emitted for the Tools line. -/
theorem C1_end_to_end :
    (processDocumentModel c1Text c1Html c1Media "1").map
        (applyAssemblyName "Panel Assembly") =
      some { docTitle := "1. Open the panel.",
             tasks := [{ task_no := "1.0.002", type := "Operation",
                         eta_sec := "", description := "Panel Assembly",
                         activity := "See Figure 1 for wiring.",
                         specification := "", attachment := "1-0-001",
                         hasImage := true }],
             images := [{ task_no := "1-0-001", imageName := "image1.png",
                          contentType := "image/png" }],
             toolsData := [{ task_no := "1.0.002", tools := "screwdriver" }],
             imtData := [] } := by
  rfl

/-! ### C5: gap filling in the paragraph strategy -/

/-- How `extractLineStep` behaves on an ordinary step line: not blank, not
a header, not a special section, matching step number `n` with
already-trimmed content `a`. -/
theorem extractLineStep_step (docTitle aid : String) (st : ExtractState)
    (line : String) (n : ℕ) (a : String)
    (hHt : isHeaderRowS (jsTrim line) = false)
    (hE : jsTrim line ≠ "")
    (hS1 : matchToolsTag (jsTrim line).data = none)
    (hS2 : matchIMTTag (jsTrim line).data = none)
    (hS3 : matchKeyPointsTag (jsTrim line).data = none)
    (hS4 : matchNoteTag (jsTrim line).data = none)
    (hM : matchStepNumber (jsTrim line).data = some (n, a.data))
    (hA : jsTrim a = a) :
    extractLineStep docTitle aid st line =
      (let prev := [emitTask docTitle aid (st.curNum.getD 0) st.curText st.curSpec]
       let st1 :=
         if st.curText ≠ "" && st.curNum.isSome then
           { st with
             tasks := st.tasks ++ prev,
             lastFound := st.curNum.getD 0,
             curSpec := "" }
         else st
       let st2 := { st1 with curNum := some n, curText := a }
       let gap := (List.range' (st2.lastFound + 1) (n - st2.lastFound - 1)).map
         (placeholderTask docTitle aid)
       if st2.lastFound > 0 && n > st2.lastFound + 1 then
         { st2 with tasks := st2.tasks ++ gap }
       else st2) := by
  have hE' : decide (jsTrim line = "") = false := decide_eq_false hE
  simp only [extractLineStep, hE', hHt, Bool.or_self, Bool.false_or, if_false,
    hS1, hS2, hS3, hS4, Option.isSome_none, Bool.false_and, Bool.or_false,
    Bool.false_or, Bool.and_false, if_neg, hM]
  have ha : jsTrim ⟨a.data⟩ = a := hA
  simp only [ha]
  rfl

/-- C5: paragraph-strategy input whose three recognized step lines carry
indices 1, 2 and 5 produces exactly five tasks in ascending order; the
tasks at indices 3 and 4 are placeholders with the fixed sentinel activity
text and empty attachment and specification, and the recognized steps carry
their own trimmed content. -/
theorem C5_gap_filling (docTitle aid : String) (l1 l2 l3 a1 a2 a3 : String)
    (hH1 : isHeaderRowS l1 = false) (hH2 : isHeaderRowS l2 = false)
    (hH3 : isHeaderRowS l3 = false)
    (hHt1 : isHeaderRowS (jsTrim l1) = false)
    (hHt2 : isHeaderRowS (jsTrim l2) = false)
    (hHt3 : isHeaderRowS (jsTrim l3) = false)
    (hE1 : jsTrim l1 ≠ "") (hE2 : jsTrim l2 ≠ "") (hE3 : jsTrim l3 ≠ "")
    (hS11 : matchToolsTag (jsTrim l1).data = none)
    (hS12 : matchIMTTag (jsTrim l1).data = none)
    (hS13 : matchKeyPointsTag (jsTrim l1).data = none)
    (hS14 : matchNoteTag (jsTrim l1).data = none)
    (hS21 : matchToolsTag (jsTrim l2).data = none)
    (hS22 : matchIMTTag (jsTrim l2).data = none)
    (hS23 : matchKeyPointsTag (jsTrim l2).data = none)
    (hS24 : matchNoteTag (jsTrim l2).data = none)
    (hS31 : matchToolsTag (jsTrim l3).data = none)
    (hS32 : matchIMTTag (jsTrim l3).data = none)
    (hS33 : matchKeyPointsTag (jsTrim l3).data = none)
    (hS34 : matchNoteTag (jsTrim l3).data = none)
    (hM1 : matchStepNumber (jsTrim l1).data = some (1, a1.data))
    (hM2 : matchStepNumber (jsTrim l2).data = some (2, a2.data))
    (hM3 : matchStepNumber (jsTrim l3).data = some (5, a3.data))
    (hA1 : jsTrim a1 = a1) (hA2 : jsTrim a2 = a2) (hA3 : jsTrim a3 = a3)
    (hN1 : a1 ≠ "") (hN2 : a2 ≠ "") (hN3 : a3 ≠ "") :
    extractTasks [l1, l2, l3] docTitle aid [] [] =
      ([{ task_no := formatTaskNum 1 aid, type := "Operation", eta_sec := "",
          description := docTitle, activity := a1, specification := "",
          attachment := "", hasImage := false },
        { task_no := formatTaskNum 2 aid, type := "Operation", eta_sec := "",
          description := docTitle, activity := a2, specification := "",
          attachment := "", hasImage := false },
        placeholderTask docTitle aid 3, placeholderTask docTitle aid 4,
        { task_no := formatTaskNum 5 aid, type := "Operation", eta_sec := "",
          description := docTitle, activity := a3, specification := "",
          attachment := "", hasImage := false }], [], []) := by
  have hsi : extractTasksStartIndex [l1, l2, l3] = 0 := by
    simp [extractTasksStartIndex, hH1, hH2, hH3]
  have e1 : extractLineStep docTitle aid ⟨[], none, "", 0, "", [], []⟩ l1 =
      ⟨[], some 1, a1, 0, "", [], []⟩ := by
    rw [extractLineStep_step docTitle aid _ l1 1 a1 hHt1 hE1 hS11 hS12 hS13 hS14
      hM1 hA1]
    simp
  have e2 : extractLineStep docTitle aid ⟨[], some 1, a1, 0, "", [], []⟩ l2 =
      ⟨[emitTask docTitle aid 1 a1 ""], some 2, a2, 1, "", [], []⟩ := by
    rw [extractLineStep_step docTitle aid _ l2 2 a2 hHt2 hE2 hS21 hS22 hS23 hS24
      hM2 hA2]
    simp [hN1]
  have e3 : extractLineStep docTitle aid
      ⟨[emitTask docTitle aid 1 a1 ""], some 2, a2, 1, "", [], []⟩ l3 =
      ⟨[emitTask docTitle aid 1 a1 "", emitTask docTitle aid 2 a2 "",
        placeholderTask docTitle aid 3, placeholderTask docTitle aid 4],
        some 5, a3, 2, "", [], []⟩ := by
    rw [extractLineStep_step docTitle aid _ l3 5 a3 hHt3 hE3 hS31 hS32 hS33 hS34
      hM3 hA3]
    simp [hN2, List.range']
  rw [extractTasks, hsi]
  simp only [List.drop_zero, List.foldl_cons, List.foldl_nil, e1, e2, e3]
  have hN3' : decide (a3 = "") = false := decide_eq_false hN3
  simp only [ne_eq, hN3', Bool.not_false, Option.isSome_some, Bool.and_self,
    if_true, Option.getD_some]
  simp [emitTask, hA1, hA2, hA3]
  exact hN3

theorem C5_gap_filling_witness :
    extractTasks ["1. Alpha", "2. Bravo", "5. Echo"] "T" "1" [] [] =
      ([{ task_no := formatTaskNum 1 "1", type := "Operation", eta_sec := "",
          description := "T", activity := "Alpha", specification := "",
          attachment := "", hasImage := false },
        { task_no := formatTaskNum 2 "1", type := "Operation", eta_sec := "",
          description := "T", activity := "Bravo", specification := "",
          attachment := "", hasImage := false },
        placeholderTask "T" "1" 3, placeholderTask "T" "1" 4,
        { task_no := formatTaskNum 5 "1", type := "Operation", eta_sec := "",
          description := "T", activity := "Echo", specification := "",
          attachment := "", hasImage := false }], [], []) :=
  C5_gap_filling "T" "1" "1. Alpha" "2. Bravo" "5. Echo" "Alpha" "Bravo" "Echo"
    (by decide) (by decide) (by decide) (by decide) (by decide) (by decide)
    (by decide) (by decide) (by decide) (by decide) (by decide) (by decide)
    (by decide) (by decide) (by decide) (by decide) (by decide) (by decide)
    (by decide) (by decide) (by decide) (by decide) (by decide) (by decide)
    (by decide) (by decide) (by decide) (by decide) (by decide) (by decide)

theorem C6_primary_attachments_witness :
    ∃ t' ∈ mapImagesToTasks [c6Task] [] "",
      t'.task_no = c6Task.task_no ∧
      t'.attachment = joinComma (collectTaskFigures c6Task) ∧
      t'.hasImage = true ∧ (collectTaskFigures c6Task).Nodup :=
  C6_primary_attachments [c6Task] [] "" (by decide) c6Task (by decide) (by decide)

/-- Three tasks with no figure references in their activities. -/
def c7Tasks : List Task :=
  [{ task_no := "1.0.001", type := "Operation", eta_sec := "",
     description := "Doc", activity := "Open the lid", specification := "",
     attachment := "", hasImage := false },
   { task_no := "1.0.002", type := "Operation", eta_sec := "",
     description := "Doc", activity := "Loosen the bolts", specification := "",
     attachment := "", hasImage := false },
   { task_no := "1.0.003", type := "Operation", eta_sec := "",
     description := "Doc", activity := "Close the lid", specification := "",
     attachment := "", hasImage := false }]

/-- Six extracted images. -/
def c7Images : List ImageRecord :=
  [{ task_no := "1-0-001", imageName := "image1.png", contentType := "image/png" },
   { task_no := "1-0-002", imageName := "image2.png", contentType := "image/png" },
   { task_no := "1-0-003", imageName := "image3.png", contentType := "image/png" },
   { task_no := "1-0-004", imageName := "image4.png", contentType := "image/png" },
   { task_no := "1-0-005", imageName := "image5.png", contentType := "image/png" },
   { task_no := "1-0-006", imageName := "image6.png", contentType := "image/png" }]

theorem C7_even_distribution_witness :
    (mapImagesToTasks c7Tasks c7Images "").length = c7Tasks.length ∧
    ((mapImagesToTasks c7Tasks c7Images "").get? 0).map
        (fun t => (t.attachment, t.hasImage)) = some ("1-0-001, 1-0-002", true) ∧
    ((mapImagesToTasks c7Tasks c7Images "").get? 1).map
        (fun t => (t.attachment, t.hasImage)) = some ("1-0-003, 1-0-004", true) ∧
    ((mapImagesToTasks c7Tasks c7Images "").get? 2).map
        (fun t => (t.attachment, t.hasImage)) = some ("1-0-005, 1-0-006", true) := by
  have h := C7_even_distribution c7Tasks c7Images "" (by decide) (by decide)
    (by decide) (by decide)
  refine ⟨h.1, ?_, ?_, ?_⟩
  · rw [h.2 0]; rfl
  · rw [h.2 1]; rfl
  · rw [h.2 2]; rfl

/-- A task referencing figure 1, matching the single extracted image. -/
def c9Task : Task :=
  { task_no := "1.0.002", type := "Operation", eta_sec := "",
    description := "Doc", activity := "See Figure 1 for wiring.",
    specification := "", attachment := "", hasImage := false }

def c9Images : List ImageRecord :=
  [{ task_no := "1-0-001", imageName := "image1.png", contentType := "image/png" }]

theorem C9_hasImage_iff_attachment_witness :
    ((mapImagesToTasks [c9Task] c9Images "").headD c9Task).hasImage = true ↔
    ((mapImagesToTasks [c9Task] c9Images "").headD c9Task).attachment ≠ "" :=
  C9_hasImage_iff_attachment [c9Task] c9Images "" (by decide) _ (by decide)

end DocxProcessor
